import Mathlib

set_option maxRecDepth 8000

/-
Verification development for the fund-growth-insight analysis engine.

The definitions below are a shallow embedding of the TypeScript sources
src/utils/portfolioAnalysis.ts and src/utils/dateUtils.ts.  JavaScript
numbers are idealized as exact rationals (ℚ) or reals (ℝ); where the IEEE
special values Infinity / -Infinity / NaN are reachable in the source
(division by a zero denominator), the computation is embedded in the
explicit type `JSVal` that keeps those special values, so that claims of
the form "the output is 0 rather than NaN or Infinity" are faithfully
statable.  Dates are embedded as calendar triples (the source stores them
as canonical YYYY-MM-DD strings and re-parses them); date differences in
whole days are exact, matching `Math.ceil((end - start) / dayMs)` on
day-aligned timestamps.
-/

/-- Calendar date, the canonical `YYYY-MM-DD` form used throughout the
source (month and day are 1-based). -/
structure CalDate where
  year : ℕ
  month : ℕ
  day : ℕ
deriving DecidableEq

/-- Whether a year is a Gregorian leap year. -/
def isLeapYear (y : ℕ) : Bool :=
  (y % 4 = 0 && y % 100 ≠ 0) || (y % 400 = 0)

/-- Number of days of month `m` (1-based) of year `y` in the Gregorian
calendar. -/
def daysInMonth (y m : ℕ) : ℕ :=
  if m = 2 then (if isLeapYear y then 29 else 28)
  else if m = 4 ∨ m = 6 ∨ m = 9 ∨ m = 11 then 30
  else 31

/-- Julian day number of a calendar date (standard Gregorian formula; all
intermediate quantities are nonnegative for the years handled by the
source, 1900-2100).  It embeds `new Date(dateString).getTime()` scaled to
whole days: only differences of this function are ever used, so the
constant offset is irrelevant. -/
def civilDays (d : CalDate) : ℤ :=
  let a : ℤ := (14 - (d.month : ℤ)) / 12
  let y : ℤ := (d.year : ℤ) + 4800 - a
  let m : ℤ := (d.month : ℤ) + 12 * a - 3
  (d.day : ℤ) + (153 * m + 2) / 5 + 365 * y + y / 4 - y / 100 + y / 400 - 32045

/-- Strict chronological order on calendar dates (embedding `new Date(a) <
new Date(b)` on canonical date strings). -/
def dateLt (a b : CalDate) : Bool :=
  a.year < b.year ∨ (a.year = b.year ∧ (a.month < b.month ∨ (a.month = b.month ∧ a.day < b.day)))

/-- Floor of a rational number, computed structurally (numerator
floor-divided by denominator) so that concrete runs reduce in the kernel. -/
def floorQ (q : ℚ) : ℤ := Int.fdiv q.num q.den

/-- Embedding of `Number(x.toFixed(n))` on finite rationals: round to `n`
decimal places, halves away from the smaller value (the decimal idealization
of toFixed). -/
def jsToFixed (n : ℕ) (q : ℚ) : ℚ := ((floorQ (q * 10 ^ n + 1 / 2) : ℤ) : ℚ) / 10 ^ n

/-- Value of a JavaScript floating-point computation, idealized: finite
values are exact elements of the carrier field, and the IEEE special
values Infinity, -Infinity and NaN are explicit (negative zero is not
modelled; it is unreachable in the embedded expressions). -/
inductive JSVal (α : Type) where
  | fin (x : α)
  | inf
  | neginf
  | nan
deriving DecidableEq

namespace JSVal

variable {α : Type} [LinearOrderedField α]

/-- JavaScript negation on `JSVal`. -/
def neg : JSVal α → JSVal α
  | fin x => fin (-x)
  | inf => neginf
  | neginf => inf
  | nan => nan

/-- JavaScript addition on `JSVal`. -/
def add : JSVal α → JSVal α → JSVal α
  | fin x, fin y => fin (x + y)
  | fin _, inf => inf
  | fin _, neginf => neginf
  | inf, fin _ => inf
  | neginf, fin _ => neginf
  | inf, inf => inf
  | neginf, neginf => neginf
  | inf, neginf => nan
  | neginf, inf => nan
  | nan, _ => nan
  | _, nan => nan

/-- JavaScript subtraction on `JSVal`. -/
def sub (a b : JSVal α) : JSVal α := add a (neg b)

/-- JavaScript multiplication on `JSVal`. -/
def mul : JSVal α → JSVal α → JSVal α
  | fin x, fin y => fin (x * y)
  | fin x, inf => if x = 0 then nan else if 0 < x then inf else neginf
  | fin x, neginf => if x = 0 then nan else if 0 < x then neginf else inf
  | inf, fin y => if y = 0 then nan else if 0 < y then inf else neginf
  | neginf, fin y => if y = 0 then nan else if 0 < y then neginf else inf
  | inf, inf => inf
  | neginf, neginf => inf
  | inf, neginf => neginf
  | neginf, inf => neginf
  | nan, _ => nan
  | _, nan => nan

/-- JavaScript division on `JSVal` (negative zero is not modelled, so a
zero divisor of a nonzero finite dividend yields Infinity with the sign of
the dividend, as for positive zero in IEEE). -/
def div : JSVal α → JSVal α → JSVal α
  | fin x, fin y =>
    if y = 0 then (if x = 0 then nan else if 0 < x then inf else neginf)
    else fin (x / y)
  | fin _, inf => fin 0
  | fin _, neginf => fin 0
  | inf, fin y => if 0 ≤ y then inf else neginf
  | neginf, fin y => if 0 ≤ y then neginf else inf
  | inf, inf => nan
  | inf, neginf => nan
  | neginf, inf => nan
  | neginf, neginf => nan
  | nan, _ => nan
  | _, nan => nan

end JSVal

/-- Embedding of `((last - first) / first) * 100`, the percentage-change
expression the source applies to first/last values of a period, keeping
the IEEE special values produced when `first = 0`. -/
def jsPctChange {α : Type} [LinearOrderedField α] (first last : α) : JSVal α :=
  JSVal.mul (JSVal.div (JSVal.fin (last - first)) (JSVal.fin first)) (JSVal.fin 100)

/-- `Number(x.toFixed n)` lifted to `JSVal ℚ` (`toFixed` of Infinity or NaN
renders and re-parses to the same special value). -/
def jsValToFixed (n : ℕ) : JSVal ℚ → JSVal ℚ
  | JSVal.fin x => JSVal.fin (jsToFixed n x)
  | JSVal.inf => JSVal.inf
  | JSVal.neginf => JSVal.neginf
  | JSVal.nan => JSVal.nan

/-- One parsed portfolio record (interface `PortfolioData` of
portfolioAnalysis.ts) as consumed by the analysis engines: a calendar
date plus the nine numeric series. -/
structure PortfolioData where
  date : CalDate
  sha : ℚ
  she : ℚ
  csi300 : ℚ
  shares : ℚ
  shareValue : ℚ
  gainLoss : ℚ
  dailyGain : ℚ
  marketValue : ℚ
  principle : ℚ
deriving DecidableEq

/-- Interface `DrawdownPeriod`.  Dates are `Option CalDate`: `none` embeds
the empty-string dates of the zero sentinel and the absent (`undefined`)
recovery date. -/
structure DrawdownPeriod where
  startDate : Option CalDate
  endDate : Option CalDate
  recoveryDate : Option CalDate
  peakValue : ℚ
  troughValue : ℚ
  drawdownPercent : ℚ
  durationDays : ℤ
  recoveryDays : Option ℤ
deriving DecidableEq

/-- Interface `DrawdownAnalysis`. -/
structure DrawdownAnalysis where
  maxDrawdown : DrawdownPeriod
  allDrawdowns : List DrawdownPeriod
  averageDrawdown : ℚ
  averageRecoveryTime : ℚ
  currentDrawdown : Option DrawdownPeriod
deriving DecidableEq

/-- The zero-valued `DrawdownPeriod` literal used when no drawdown exists
(lines 492-499 and 569-576 of portfolioAnalysis.ts). -/
def emptyDrawdownPeriod : DrawdownPeriod :=
  ⟨none, none, none, 0, 0, 0, 0, none⟩

/-- Function `createDrawdownPeriod` (portfolioAnalysis.ts lines 602-630).
`startDate` is an `Option` because the source initializes `drawdownStart`
to the empty string; whenever the function is actually called the start of
an open episode has been set to a real date, and the 0 duration of the
`none` case stands for the NaN that `new Date('')` arithmetic would give
on that unreachable path.  Durations embed `Math.ceil((end - start) /
dayMs)`, exact on day-aligned dates. -/
def createDrawdownPeriod (startDate : Option CalDate) (endDate : CalDate)
    (recoveryDate : Option CalDate) (peakValue troughValue drawdownPercent : ℚ) :
    DrawdownPeriod :=
  { startDate := startDate
    endDate := some endDate
    recoveryDate := recoveryDate
    peakValue := peakValue
    troughValue := troughValue
    drawdownPercent := jsToFixed 2 drawdownPercent
    durationDays :=
      match startDate with
      | some s => civilDays endDate - civilDays s
      | none => 0
    recoveryDays := recoveryDate.map (fun r => civilDays r - civilDays endDate) }

/-- Loop state of `calculateDrawdownAnalysis` (portfolioAnalysis.ts lines
506-512).  The source keeps `maxDrawdownIndex` and later reads
`data[maxDrawdownIndex].date` and `.shareValue`; records are immutable, so
the state stores that record's date and share value directly
(`troughDate`, `troughValue`).  `drawdownStart` is `none` while the
source's string is the initial `''`. -/
structure DDState where
  currentPeak : ℚ
  currentPeakDate : CalDate
  inDrawdown : Bool
  drawdownStart : Option CalDate
  maxDrawdownPercent : ℚ
  troughDate : CalDate
  troughValue : ℚ
  drawdowns : List DrawdownPeriod
deriving DecidableEq

/-- One iteration of the drawdown scan (portfolioAnalysis.ts lines
514-552), processing the record at index `i ≥ 1`. -/
def ddStep (st : DDState) (r : PortfolioData) : DDState :=
  let currentValue := r.shareValue
  let currentDate := r.date
  if st.currentPeak < currentValue then
    let closed :=
      if st.inDrawdown then
        st.drawdowns ++
          [createDrawdownPeriod st.drawdownStart st.troughDate (some currentDate)
            st.currentPeak st.troughValue st.maxDrawdownPercent]
      else st.drawdowns
    { st with
      currentPeak := currentValue
      currentPeakDate := currentDate
      inDrawdown := false
      maxDrawdownPercent := 0
      drawdowns := closed }
  else
    let drawdownPercent := (st.currentPeak - currentValue) / st.currentPeak * 100
    if 1 / 10 < drawdownPercent then
      if st.inDrawdown then
        if st.maxDrawdownPercent < drawdownPercent then
          { st with
            maxDrawdownPercent := drawdownPercent
            troughDate := currentDate
            troughValue := currentValue }
        else st
      else
        { st with
          inDrawdown := true
          drawdownStart := some st.currentPeakDate
          maxDrawdownPercent := drawdownPercent
          troughDate := currentDate
          troughValue := currentValue }
    else st

/-- The zero/empty `DrawdownAnalysis` sentinel returned for fewer than two
records (portfolioAnalysis.ts lines 490-504). -/
def emptyDrawdownAnalysis : DrawdownAnalysis :=
  ⟨emptyDrawdownPeriod, [], 0, 0, none⟩

/-- Function `calculateDrawdownAnalysis` (portfolioAnalysis.ts lines
489-600): single forward scan segmenting the share-value series into
peak-to-trough-to-recovery episodes, then aggregation. -/
def calculateDrawdownAnalysis (data : List PortfolioData) : DrawdownAnalysis :=
  if data.length < 2 then emptyDrawdownAnalysis
  else
    match data with
    | [] => emptyDrawdownAnalysis
    | d0 :: rest =>
      let st0 : DDState := ⟨d0.shareValue, d0.date, false, none, 0, d0.date, d0.shareValue, []⟩
      let st := rest.foldl ddStep st0
      let currentDrawdown : Option DrawdownPeriod :=
        if st.inDrawdown then
          some (createDrawdownPeriod st.drawdownStart st.troughDate none
            st.currentPeak st.troughValue st.maxDrawdownPercent)
        else none
      let drawdowns := st.drawdowns ++ currentDrawdown.toList
      let maxDrawdown :=
        drawdowns.foldl
          (fun m dd => if m.drawdownPercent < dd.drawdownPercent then dd else m)
          (drawdowns.headD emptyDrawdownPeriod)
      let completedDrawdowns := drawdowns.filter (fun dd => dd.recoveryDate.isSome)
      let averageDrawdown : ℚ :=
        if 0 < drawdowns.length then
          (drawdowns.map (fun dd => dd.drawdownPercent)).sum / (drawdowns.length : ℚ)
        else 0
      let averageRecoveryTime : ℚ :=
        if 0 < completedDrawdowns.length then
          ((completedDrawdowns.map (fun dd => ((dd.recoveryDays.getD 0 : ℤ) : ℚ))).sum) /
            (completedDrawdowns.length : ℚ)
        else 0
      { maxDrawdown := maxDrawdown
        allDrawdowns := drawdowns
        averageDrawdown := jsToFixed 2 averageDrawdown
        averageRecoveryTime := jsToFixed 0 averageRecoveryTime
        currentDrawdown := currentDrawdown }

/-- Record constructor used by the concrete test series: date and share
value as given, every other numeric series set to 1. -/
def mkShareRecord (d : CalDate) (v : ℚ) : PortfolioData :=
  ⟨d, 1, 1, 1, 1, v, 1, 1, 1, 1⟩

/-- Mean of a list of reals, from the specification's words. -/
noncomputable def listMean (l : List ℝ) : ℝ := l.sum / (l.length : ℝ)

/-- Population variance of a list of reals, from the specification's
words. -/
noncomputable def listVariance (l : List ℝ) : ℝ :=
  ((l.map (fun x => (x - listMean l) * (x - listMean l))).sum) / (l.length : ℝ)

/-- Standard deviation of a list of reals, from the specification's
words. -/
noncomputable def listStdDev (l : List ℝ) : ℝ := Real.sqrt (listVariance l)

/-- Distinct elements of a list in first-occurrence order (the key set of
a JavaScript `Map` built by insertion). -/
def firstOccurrences (l : List ℕ) : List ℕ :=
  l.foldl (fun acc y => if y ∈ acc then acc else acc ++ [y]) []

/-- The concrete series 100, 90, 95, 110 on four consecutive days. -/
def c1Data : List PortfolioData :=
  [mkShareRecord ⟨2020, 1, 1⟩ 100, mkShareRecord ⟨2020, 1, 2⟩ 90,
   mkShareRecord ⟨2020, 1, 3⟩ 95, mkShareRecord ⟨2020, 1, 4⟩ 110]

/-- Embedding of `Number(x.toFixed n)` on a real: round to `n` decimal
places (Mathlib's `round` is the same floor-based half-up rounding as
`floorQ (q + 1/2)`). -/
noncomputable def roundToR (n : ℕ) (x : ℝ) : ℝ := ((round (x * 10 ^ n) : ℤ) : ℝ) / 10 ^ n

/-- Daily simple returns on `shareValue` (portfolioAnalysis.ts lines
344-348): one return per adjacent pair, dividing by the previous value
unconditionally.  Division is exact rational division; the data contract
(`shareValue > 0`, enforced by the parser) keeps the denominator nonzero,
which is why no IEEE special values are modelled here. -/
def dailyReturnsOf (data : List PortfolioData) : List ℚ :=
  (data.zip data.tail).map (fun p => (p.2.shareValue - p.1.shareValue) / p.1.shareValue)

/-- Mean of a list of rationals, `reduce((a,b) => a+b, 0) / length`. -/
def meanOf (l : List ℚ) : ℚ := l.sum / (l.length : ℚ)

/-- Population variance as computed by the source (lines 351-352):
mean of squared deviations from the mean. -/
def varianceOf (l : List ℚ) : ℚ :=
  ((l.map (fun r => (r - meanOf l) * (r - meanOf l))).sum) / (l.length : ℚ)

/-- Annualized volatility of the daily returns (line 353):
`sqrt(variance * 252) * 100`, before the final 2-decimal rounding. -/
noncomputable def volatilityOf (data : List PortfolioData) : ℝ :=
  Real.sqrt ((varianceOf (dailyReturnsOf data) : ℝ) * 252) * 100

/-- One step of the running-peak maximum-drawdown scan (lines 364-372):
the peak is raised first, then the drawdown percentage at the current
point is compared against the running maximum. -/
def mddStep (st : ℚ × ℚ) (v : ℚ) : ℚ × ℚ :=
  let peak := if st.1 < v then v else st.1
  let drawdown := (peak - v) / peak * 100
  if st.2 < drawdown then (peak, drawdown) else (peak, st.2)

/-- Maximum drawdown of a value series (lines 360-372), unrounded. -/
def maxDrawdownOf (values : List ℚ) : ℚ :=
  match values with
  | [] => 0
  | v0 :: rest => (rest.foldl mddStep (v0, 0)).2

/-- Annualized downside deviation (lines 374-380): the volatility formula
restricted to the strictly negative daily returns, 0 when there are none. -/
noncomputable def downsideDeviationOf (data : List PortfolioData) : ℝ :=
  let negativeReturns := (dailyReturnsOf data).filter (fun r => decide (r < 0))
  if 0 < negativeReturns.length then
    Real.sqrt ((((negativeReturns.map (fun r => r * r)).sum /
      (negativeReturns.length : ℚ) : ℚ) : ℝ) * 252) * 100
  else 0

/-- Interface `RiskMetrics`.  `maxDrawdown` involves only rational
arithmetic and is kept in ℚ; the square-root based fields live in ℝ. -/
structure RiskMetrics where
  sharpeRatio : ℝ
  maxDrawdown : ℚ
  volatility : ℝ
  downsideDeviation : ℝ
  sortinioRatio : ℝ

/-- Function `calculateRiskMetrics` (portfolioAnalysis.ts lines 334-392).
The source defaults `riskFreeRate` to 0.03; the parameter is explicit
here. -/
noncomputable def calculateRiskMetrics (data : List PortfolioData) (riskFreeRate : ℚ) :
    RiskMetrics :=
  if data.length < 2 then ⟨0, 0, 0, 0, 0⟩
  else
    let dailyReturns := dailyReturnsOf data
    let meanReturn := meanOf dailyReturns
    let volatility := volatilityOf data
    let annualizedReturn : ℚ := meanReturn * 252 * 100
    let excessReturn : ℚ := annualizedReturn - riskFreeRate * 100
    let sharpeRatio : ℝ := if volatility ≠ 0 then (excessReturn : ℝ) / volatility else 0
    let maxDrawdown := maxDrawdownOf (data.map (fun r => r.shareValue))
    let downsideDeviation := downsideDeviationOf data
    let sortinioRatio : ℝ :=
      if downsideDeviation ≠ 0 then (excessReturn : ℝ) / downsideDeviation else 0
    ⟨roundToR 3 sharpeRatio, jsToFixed 2 maxDrawdown, roundToR 2 volatility,
      roundToR 2 downsideDeviation, roundToR 3 sortinioRatio⟩

/-- The `mean1` of `calculateCorrelation` (portfolioAnalysis.ts line 257):
the sum of the FULL first list divided by the common length
`n = min(length1, length2)` — `values1.reduce(...)` sums the whole array
even when `n` is shorter. -/
noncomputable def corrMean1 (values1 values2 : List ℝ) : ℝ :=
  values1.sum / ((min values1.length values2.length : ℕ) : ℝ)

/-- The `mean2` of `calculateCorrelation` (line 258), symmetric to
`corrMean1`. -/
noncomputable def corrMean2 (values1 values2 : List ℝ) : ℝ :=
  values2.sum / ((min values1.length values2.length : ℕ) : ℝ)

/-- The `numerator` accumulator of `calculateCorrelation` (lines 260-270):
the deviation loop runs over the first `n` elements only. -/
noncomputable def corrNumerator (values1 values2 : List ℝ) : ℝ :=
  (((values1.take (min values1.length values2.length)).zip
      (values2.take (min values1.length values2.length))).map
    (fun p => (p.1 - corrMean1 values1 values2) * (p.2 - corrMean2 values1 values2))).sum

/-- The `sum1` accumulator of `calculateCorrelation` (lines 260-270). -/
noncomputable def corrSum1 (values1 values2 : List ℝ) : ℝ :=
  ((values1.take (min values1.length values2.length)).map
    (fun x => (x - corrMean1 values1 values2) * (x - corrMean1 values1 values2))).sum

/-- The `sum2` accumulator of `calculateCorrelation` (lines 260-270). -/
noncomputable def corrSum2 (values1 values2 : List ℝ) : ℝ :=
  ((values2.take (min values1.length values2.length)).map
    (fun x => (x - corrMean2 values1 values2) * (x - corrMean2 values1 values2))).sum

/-- Function `calculateCorrelation` (portfolioAnalysis.ts lines 253-274):
0 when the common length is 0, otherwise `numerator / sqrt(sum1 * sum2)`
with 0 substituted when the denominator is 0. -/
noncomputable def calculateCorrelation (values1 values2 : List ℝ) : ℝ :=
  if min values1.length values2.length = 0 then 0
  else
    if Real.sqrt (corrSum1 values1 values2 * corrSum2 values1 values2) = 0 then 0
    else corrNumerator values1 values2 /
      Real.sqrt (corrSum1 values1 values2 * corrSum2 values1 values2)

/-- Mean of a truncated sequence over the common length, from the
specification's words. -/
noncomputable def specTruncMean (values1 values2 : List ℝ) (t : List ℝ) : ℝ :=
  t.sum / ((min values1.length values2.length : ℕ) : ℝ)

/-- The specification's covariance of the truncated sequences. -/
noncomputable def specCov (values1 values2 : List ℝ) : ℝ :=
  ((((values1.take (min values1.length values2.length)).zip
      (values2.take (min values1.length values2.length))).map
    (fun p => (p.1 - specTruncMean values1 values2 (values1.take (min values1.length values2.length))) *
      (p.2 - specTruncMean values1 values2 (values2.take (min values1.length values2.length))))).sum) /
    ((min values1.length values2.length : ℕ) : ℝ)

/-- The specification's standard deviation of one truncated sequence. -/
noncomputable def specSd (values1 values2 : List ℝ) (t : List ℝ) : ℝ :=
  Real.sqrt (((t.map (fun x => (x - specTruncMean values1 values2 t) *
    (x - specTruncMean values1 values2 t))).sum) / ((min values1.length values2.length : ℕ) : ℝ))

/-- Standard Pearson correlation of the two sequences truncated to the
shorter length, written from the specification's words: covariance over
the product of the standard deviations of the truncated sequences, 0 when
the common length is 0 or either standard deviation is 0. -/
noncomputable def pearsonSpecCorrelation (values1 values2 : List ℝ) : ℝ :=
  if min values1.length values2.length = 0 then 0
  else
    if specSd values1 values2 (values1.take (min values1.length values2.length)) = 0 ∨
        specSd values1 values2 (values2.take (min values1.length values2.length)) = 0 then 0
    else specCov values1 values2 /
      (specSd values1 values2 (values1.take (min values1.length values2.length)) *
        specSd values1 values2 (values2.take (min values1.length values2.length)))

/-- Function `calculateReturns` (portfolioAnalysis.ts lines 444-452):
period-over-period simple returns, silently skipping any step whose
previous level is exactly 0. -/
def calculateReturns (values : List ℚ) : List ℚ :=
  ((values.zip values.tail).filter (fun p => decide (p.1 ≠ 0))).map
    (fun p => (p.2 - p.1) / p.1)

/-- The benchmark-variance accumulator of `calculateBeta`
(portfolioAnalysis.ts lines 461-469): sum of squared deviations of the
first `min`-length benchmark returns from their (correctly truncated)
mean. -/
def betaBenchmarkVariance (portfolioReturns benchmarkReturns : List ℚ) : ℚ :=
  let minLength := min portfolioReturns.length benchmarkReturns.length
  let benchmarkMean := (benchmarkReturns.take minLength).sum / (minLength : ℚ)
  ((benchmarkReturns.take minLength).map
    (fun y => (y - benchmarkMean) * (y - benchmarkMean))).sum

/-- The covariance accumulator of `calculateBeta` (lines 461-469). -/
def betaCovariance (portfolioReturns benchmarkReturns : List ℚ) : ℚ :=
  let minLength := min portfolioReturns.length benchmarkReturns.length
  let portfolioMean := (portfolioReturns.take minLength).sum / (minLength : ℚ)
  let benchmarkMean := (benchmarkReturns.take minLength).sum / (minLength : ℚ)
  (((portfolioReturns.take minLength).zip (benchmarkReturns.take minLength)).map
    (fun p => (p.1 - portfolioMean) * (p.2 - benchmarkMean))).sum

/-- Function `calculateBeta` (portfolioAnalysis.ts lines 454-472): OLS
slope of portfolio returns on benchmark returns over the common prefix,
0 when the common length or the benchmark variance is 0. -/
def calculateBeta (portfolioReturns benchmarkReturns : List ℚ) : ℚ :=
  let minLength := min portfolioReturns.length benchmarkReturns.length
  if minLength = 0 then 0
  else
    if betaBenchmarkVariance portfolioReturns benchmarkReturns ≠ 0 then
      betaCovariance portfolioReturns benchmarkReturns /
        betaBenchmarkVariance portfolioReturns benchmarkReturns
    else 0

/-- Function `calculateTrackingError` (portfolioAnalysis.ts lines
474-487): annualized standard deviation of the per-period excess returns
over the common prefix, 0 when the common length is 0. -/
noncomputable def calculateTrackingError (portfolioReturns benchmarkReturns : List ℚ) : ℝ :=
  let minLength := min portfolioReturns.length benchmarkReturns.length
  if minLength = 0 then 0
  else
    let excessReturns :=
      ((portfolioReturns.take minLength).zip (benchmarkReturns.take minLength)).map
        (fun p => p.1 - p.2)
    let mean := meanOf excessReturns
    let variance :=
      ((excessReturns.map (fun r => (r - mean) * (r - mean))).sum) / (excessReturns.length : ℚ)
    Real.sqrt ((variance : ℝ) * 252) * 100

/-- The three benchmark names (lines 397-401). -/
inductive BenchName where
  | SHA
  | SHE
  | CSI300
deriving DecidableEq

/-- Interface `BenchmarkComparison`.  The total-return based fields keep
the IEEE special values reachable when a first value is 0, so they live in
`JSVal ℝ`; `beta` and `trackingError` are computed from `calculateReturns`
sequences, whose zero-denominator steps are skipped, and are plain reals. -/
structure BenchmarkComparison where
  benchmark : BenchName
  portfolioReturn : JSVal ℝ
  benchmarkReturn : JSVal ℝ
  alpha : JSVal ℝ
  beta : ℝ
  trackingError : ℝ
  informationRatio : JSVal ℝ
  activeReturn : JSVal ℝ

/-- `Number(x.toFixed n)` lifted to `JSVal ℝ`. -/
noncomputable def jsValToFixedR (n : ℕ) : JSVal ℝ → JSVal ℝ
  | JSVal.fin x => JSVal.fin (roundToR n x)
  | JSVal.inf => JSVal.inf
  | JSVal.neginf => JSVal.neginf
  | JSVal.nan => JSVal.nan

/-- The per-benchmark body of `calculateBenchmarkComparisons`
(portfolioAnalysis.ts lines 405-441), for one benchmark value series. -/
noncomputable def benchComparisonFor (name : BenchName)
    (portfolioValues benchValues : List ℚ) : BenchmarkComparison :=
  let portfolioReturns := calculateReturns portfolioValues
  let benchmarkReturns := calculateReturns benchValues
  let portfolioTotalReturn : JSVal ℝ :=
    jsPctChange ((portfolioValues.headD 0 : ℚ) : ℝ) ((portfolioValues.getLastD 0 : ℚ) : ℝ)
  let benchmarkTotalReturn : JSVal ℝ :=
    jsPctChange ((benchValues.headD 0 : ℚ) : ℝ) ((benchValues.getLastD 0 : ℚ) : ℝ)
  let beta := calculateBeta portfolioReturns benchmarkReturns
  let riskFreeRate : ℝ := 3
  let alpha : JSVal ℝ :=
    JSVal.sub portfolioTotalReturn
      (JSVal.add (JSVal.fin riskFreeRate)
        (JSVal.mul (JSVal.fin (beta : ℝ))
          (JSVal.sub benchmarkTotalReturn (JSVal.fin riskFreeRate))))
  let trackingError := calculateTrackingError portfolioReturns benchmarkReturns
  let activeReturn : JSVal ℝ := JSVal.sub portfolioTotalReturn benchmarkTotalReturn
  let informationRatio : JSVal ℝ :=
    if trackingError ≠ 0 then JSVal.div activeReturn (JSVal.fin trackingError)
    else JSVal.fin 0
  { benchmark := name
    portfolioReturn := jsValToFixedR 2 portfolioTotalReturn
    benchmarkReturn := jsValToFixedR 2 benchmarkTotalReturn
    alpha := jsValToFixedR 2 alpha
    beta := roundToR 3 (beta : ℝ)
    trackingError := roundToR 2 trackingError
    informationRatio := jsValToFixedR 3 informationRatio
    activeReturn := jsValToFixedR 2 activeReturn }

/-- Function `calculateBenchmarkComparisons` (portfolioAnalysis.ts lines
394-442): one comparison per benchmark in fixed order; empty for fewer
than two records. -/
noncomputable def calculateBenchmarkComparisons (data : List PortfolioData) :
    List BenchmarkComparison :=
  if data.length < 2 then []
  else
    let portfolioValues := data.map (fun d => d.shareValue)
    [benchComparisonFor BenchName.SHA portfolioValues (data.map (fun d => d.sha)),
     benchComparisonFor BenchName.SHE portfolioValues (data.map (fun d => d.she)),
     benchComparisonFor BenchName.CSI300 portfolioValues (data.map (fun d => d.csi300))]

/-- Interface `AnnualReturn`.  The per-series returns keep the IEEE
special values produced when a year's first value is 0, so they live in
`JSVal ℚ`. -/
structure AnnualReturn where
  year : ℕ
  fundReturn : JSVal ℚ
  shaReturn : JSVal ℚ
  sheReturn : JSVal ℚ
  csi300Return : JSVal ℚ
deriving DecidableEq

/-- One insertion into the year-keyed map of `calculateAnnualReturns`
(portfolioAnalysis.ts lines 292-300).  The JavaScript `Map` preserves
insertion order and `set` on an existing key updates in place, which is
exactly this association-list update. -/
def updateYearly (m : List (ℕ × PortfolioData × PortfolioData)) (row : PortfolioData) :
    List (ℕ × PortfolioData × PortfolioData) :=
  let year := row.date.year
  if m.any (fun e => e.1 = year) then
    m.map (fun e => if e.1 = year then (e.1, e.2.1, row) else e)
  else m ++ [(year, row, row)]

/-- The per-year entry construction of `calculateAnnualReturns` (lines
302-309). -/
def mkAnnualReturn (year : ℕ) (first last : PortfolioData) : AnnualReturn :=
  ⟨year, jsPctChange first.shareValue last.shareValue,
    jsPctChange first.sha last.sha, jsPctChange first.she last.she,
    jsPctChange first.csi300 last.csi300⟩

/-- Function `calculateAnnualReturns` (portfolioAnalysis.ts lines
289-311): group records by the calendar year of their date (in input
order, keeping the first and the most recent record of each year), map
each year to its four percentage returns, and sort ascending by year.
`getFullYear` of a canonical date string is embedded as the year
component (UTC idealization). -/
def calculateAnnualReturns (data : List PortfolioData) : List AnnualReturn :=
  let yearly := data.foldl updateYearly []
  (yearly.map (fun e => mkAnnualReturn e.1 e.2.1 e.2.2)).mergeSort
    (fun a b => decide (a.year ≤ b.year))

/-- The year-keyed map built by `calculateAnnualReturns` before the final
mapping and sort. -/
def yearlyMap (data : List PortfolioData) : List (ℕ × PortfolioData × PortfolioData) :=
  data.foldl updateYearly []

/-- The per-year entry of the specification's annual-return description:
the chronologically first and last records observed for the year in input
order are the head and the last element of the input filtered to that
year, and each series' return is the plain percentage change between
them.  (The `headD`/`getLastD` defaults are never reached: the year list
below only contains years that occur in the data.) -/
def specYearEntry (data : List PortfolioData) (y : ℕ) : AnnualReturn :=
  let g := data.filter (fun r => decide (r.date.year = y))
  let first := g.headD (mkShareRecord ⟨0, 1, 1⟩ 1)
  let last := g.getLastD (mkShareRecord ⟨0, 1, 1⟩ 1)
  ⟨y, JSVal.fin ((last.shareValue - first.shareValue) / first.shareValue * 100),
    JSVal.fin ((last.sha - first.sha) / first.sha * 100),
    JSVal.fin ((last.she - first.she) / first.she * 100),
    JSVal.fin ((last.csi300 - first.csi300) / first.csi300 * 100)⟩

/-- The specification's annual-return computation: one entry per distinct
calendar year of the input, emitted sorted ascending by year. -/
def annualReturnsSpec (data : List PortfolioData) : List AnnualReturn :=
  ((firstOccurrences (data.map (fun r => r.date.year))).mergeSort
    (fun a b => decide (a ≤ b))).map (specYearEntry data)

/-- Two same-year records whose SHA level starts at exactly 0: the
denominator of the SHA annual return is 0. -/
def zeroBenchData : List PortfolioData :=
  [⟨⟨2022, 1, 1⟩, 0, 1, 1, 1, 1, 1, 1, 1, 1⟩,
   ⟨⟨2022, 1, 2⟩, 5, 1, 1, 1, 2, 1, 1, 1, 1⟩]

/-- The spec's own two-year example series, all values nonzero. -/
def c4Data : List PortfolioData :=
  [mkShareRecord ⟨2014, 1, 2⟩ 1, mkShareRecord ⟨2014, 6, 1⟩ (11 / 10),
   mkShareRecord ⟨2015, 1, 2⟩ (11 / 10), mkShareRecord ⟨2015, 6, 1⟩ (12 / 10)]

/-- A single record (hence a one-record year) whose three benchmark
levels are all exactly 0. -/
def zeroSingleData : List PortfolioData :=
  [⟨⟨2021, 3, 1⟩, 0, 0, 0, 1, 2, 1, 1, 1, 1⟩]

/-- JavaScript whitespace characters relevant to the embedded inputs. -/
def isWsChar (c : Char) : Bool := c = ' ' ∨ c = '\t' ∨ c = '\n' ∨ c = '\r'

/-- `String.prototype.trim` on a character sequence. -/
def trimChars (s : List Char) : List Char :=
  ((s.dropWhile isWsChar).reverse.dropWhile isWsChar).reverse

/-- `String.prototype.split(sep)` on a character sequence: like JavaScript
it never returns an empty list (splitting the empty string gives one empty
group). -/
def splitOnChar (sep : Char) (s : List Char) : List (List Char) :=
  s.foldr
    (fun c acc =>
      if c = sep then [] :: acc
      else
        match acc with
        | g :: gs => (c :: g) :: gs
        | [] => [[c]])
    [[]]

/-- Decimal digit test. -/
def isDigitChar (c : Char) : Bool := '0' ≤ c ∧ c ≤ '9'

/-- Numeric value of a digit run. -/
def natOfDigits (ds : List Char) : ℕ :=
  ds.foldl (fun n c => 10 * n + (c.toNat - 48)) 0

/-- Embedding of `parseInt(s, 10)`: skip leading whitespace, optional
sign, then the longest leading digit run; `none` is NaN.  (Only the
decimal fragment relevant to date tokens is modelled.) -/
def jsParseInt (s : List Char) : Option ℤ :=
  let t := s.dropWhile isWsChar
  let core : List Char × Bool :=
    match t with
    | '-' :: rest => (rest, true)
    | '+' :: rest => (rest, false)
    | _ => (t, false)
  let digits := core.1.takeWhile isDigitChar
  if digits = [] then none
  else some (if core.2 then -(natOfDigits digits : ℤ) else (natOfDigits digits : ℤ))

/-- Embedding of `parseFloat(s)`: skip leading whitespace, optional sign,
longest leading `digits[.digits]` run; `none` is NaN.  (Exponents and
`Infinity` literals are not modelled; no embedded input uses them.) -/
def jsParseFloat (s : List Char) : Option ℚ :=
  let t := s.dropWhile isWsChar
  let core : List Char × Bool :=
    match t with
    | '-' :: rest => (rest, true)
    | '+' :: rest => (rest, false)
    | _ => (t, false)
  let intDigits := core.1.takeWhile isDigitChar
  let afterInt := core.1.drop intDigits.length
  let fracDigits :=
    match afterInt with
    | '.' :: rest => rest.takeWhile isDigitChar
    | _ => []
  if intDigits = [] ∧ fracDigits = [] then none
  else
    let magnitude : ℚ :=
      (natOfDigits intDigits : ℚ) + (natOfDigits fracDigits : ℚ) / (10 ^ fracDigits.length : ℚ)
    some (if core.2 then -magnitude else magnitude)

/-- The characters removed by `value.replace(/[(),\s]/g, '')`. -/
def isStrippedChar (c : Char) : Bool := c = '(' ∨ c = ')' ∨ c = ',' ∨ isWsChar c

/-- The cleaned-up field contents used by `parseNumericValue`. -/
def cleanNumeric (value : List Char) : List Char :=
  value.filter (fun c => ¬ isStrippedChar c)

/-- The inner function `parseNumericValue` of `parseCSVWithValidation`
(portfolioAnalysis.ts lines 162-176).  The second component is `true` when
the source records an "Invalid ... using 0" warning for this field. -/
def parseNumericValue (value : List Char) : ℚ × Bool :=
  if value = [] then (0, false)
  else
    let cleanValue := cleanNumeric value
    let isNegative := value.contains '('
    match jsParseFloat cleanValue with
    | none => (0, true)
    | some parsed => ((if isNegative then -parsed else parsed), false)

/-- The parse errors and warnings of `parseCSVWithValidation`, one
constructor per `errors.push` / `warnings.push` site; the source messages
are strings interpolating the recorded data.  Line numbers are 1-based
file line numbers as in the source. -/
inductive ParseMsg where
  | emptyFile
  | tooFewRows
  | emptyRow (line : ℕ)
  | insufficientColumns (line got : ℕ)
  | dateRequired (line : ℕ)
  | invalidDateFormat (line : ℕ)
  | invalidDateValues (line : ℕ)
  | invalidISODate (line : ℕ)
  | unrecognizedDateFormat (line : ℕ)
  | invalidNumeric (line col : ℕ)
  | nonPositiveShareValue (line : ℕ)
  | negativeShares (line : ℕ)
  | noValidData
  | notChronological
deriving DecidableEq

/-- A record as produced by the validating parser.  The date is an
`Option CalDate` because the DD/MM/YYYY branch lets `parseInt` NaN values
slip through its range check (NaN comparisons are false, lines 138-145),
producing a non-calendar date token, embedded as `none`. -/
structure RawRecord where
  date : Option CalDate
  sha : ℚ
  she : ℚ
  csi300 : ℚ
  shares : ℚ
  shareValue : ℚ
  gainLoss : ℚ
  dailyGain : ℚ
  marketValue : ℚ
  principle : ℚ
deriving DecidableEq

/-- Accumulated state of the row loop of `parseCSVWithValidation`. -/
structure PState where
  data : List RawRecord
  errors : List ParseMsg
  warnings : List ParseMsg
deriving DecidableEq

/-- Interface `ParseResult`. -/
structure ParseResult where
  data : List RawRecord
  errors : List ParseMsg
  warnings : List ParseMsg
deriving DecidableEq

/-- The range check of the DD/MM/YYYY branch (line 142) under JavaScript
NaN semantics: a NaN component (`none`) makes every comparison false, so
it does NOT fail the check. -/
def failsRangeNaN (v : Option ℤ) (lo hi : ℤ) : Bool :=
  match v with
  | some x => decide (x < lo) || decide (hi < x)
  | none => false

/-- The date token built at line 147 from the three parsed groups: a
calendar triple when all three are numbers, the `none` garbage token when
a NaN slipped through. -/
def dateTokenOf (day month year : Option ℤ) : Option CalDate :=
  match day, month, year with
  | some d, some m, some y => some ⟨y.toNat, m.toNat, d.toNat⟩
  | _, _, _ => none

/-- Embedding of the ISO branch's validity check `new Date(dateValue)`
(lines 148-155) for `YYYY-MM-DD` tokens: strict 4-2-2 digit groups
denoting a real calendar date.  (V8 accepts some further forms; no claim
depends on them and no embedded input uses them.) -/
def parseISODate (s : List Char) : Option CalDate :=
  match splitOnChar '-' s with
  | [ys, ms, ds] =>
    if ys.length = 4 ∧ ms.length = 2 ∧ ds.length = 2 ∧
        (ys ++ ms ++ ds).all isDigitChar then
      let y := natOfDigits ys
      let m := natOfDigits ms
      let d := natOfDigits ds
      if 1 ≤ m ∧ m ≤ 12 ∧ 1 ≤ d ∧ d ≤ daysInMonth y m then some ⟨y, m, d⟩
      else none
    else none
  | _ => none

/-- The numeric-field warnings recorded while parsing one row's nine
numeric columns, in source order (columns 1-9, lines 178-186). -/
def numericWarningsOf (ln : ℕ) (values : List (List Char)) : List ParseMsg :=
  (List.range 9).foldr
    (fun i acc =>
      (if (parseNumericValue (values.getD (i + 1) [])).2 then
        [ParseMsg.invalidNumeric ln (i + 1)] else []) ++ acc)
    []

/-- The tail of the row handler after a successful date parse: the nine
numeric fields are parsed (collecting warnings in column order), the
strictly-positive share-value guard is applied (lines 188-192), the
negative-shares warning is recorded (lines 194-196) and the record is
appended (lines 198-209). -/
def finishRow (ln : ℕ) (st : PState) (values : List (List Char))
    (theDate : Option CalDate) : PState :=
  let psha := parseNumericValue (values.getD 1 [])
  let pshe := parseNumericValue (values.getD 2 [])
  let pcsi := parseNumericValue (values.getD 3 [])
  let pshares := parseNumericValue (values.getD 4 [])
  let pshareValue := parseNumericValue (values.getD 5 [])
  let pgainLoss := parseNumericValue (values.getD 6 [])
  let pdailyGain := parseNumericValue (values.getD 7 [])
  let pmarketValue := parseNumericValue (values.getD 8 [])
  let pprinciple := parseNumericValue (values.getD 9 [])
  let warnings1 := st.warnings ++ numericWarningsOf ln values
  if pshareValue.1 ≤ 0 then
    { st with warnings := warnings1 ++ [ParseMsg.nonPositiveShareValue ln] }
  else
    let warnings2 :=
      warnings1 ++ (if pshares.1 < 0 then [ParseMsg.negativeShares ln] else [])
    { st with
      warnings := warnings2
      data := st.data ++
        [⟨theDate, psha.1, pshe.1, pcsi.1, pshares.1, pshareValue.1,
          pgainLoss.1, pdailyGain.1, pmarketValue.1, pprinciple.1⟩] }

/-- The body of the row loop of `parseCSVWithValidation` (portfolio
Analysis.ts lines 99-214) for the row at file line `ln`. -/
def processRow (ln : ℕ) (st : PState) (line : List Char) : PState :=
  if trimChars line = [] then
    { st with warnings := st.warnings ++ [ParseMsg.emptyRow ln] }
  else
    let values := (splitOnChar ',' line).map trimChars
    if values.all (fun v => v = []) then
      { st with warnings := st.warnings ++ [ParseMsg.emptyRow ln] }
    else if values.length < 10 then
      { st with errors := st.errors ++ [ParseMsg.insufficientColumns ln values.length] }
    else
      let dateValue := values.headD []
      if dateValue = [] then
        { st with errors := st.errors ++ [ParseMsg.dateRequired ln] }
      else if dateValue.contains '/' then
        let dateParts := splitOnChar '/' dateValue
        if dateParts.length ≠ 3 then
          { st with errors := st.errors ++ [ParseMsg.invalidDateFormat ln] }
        else
          let day := jsParseInt (dateParts.getD 0 [])
          let month := jsParseInt (dateParts.getD 1 [])
          let year := jsParseInt (dateParts.getD 2 [])
          if failsRangeNaN day 1 31 || failsRangeNaN month 1 12 ||
              failsRangeNaN year 1900 2100 then
            { st with errors := st.errors ++ [ParseMsg.invalidDateValues ln] }
          else finishRow ln st values (dateTokenOf day month year)
      else if dateValue.contains '-' then
        match parseISODate dateValue with
        | none => { st with errors := st.errors ++ [ParseMsg.invalidISODate ln] }
        | some d => finishRow ln st values (some d)
      else
        { st with errors := st.errors ++ [ParseMsg.unrecognizedDateFormat ln] }

/-- The global chronological-order check (lines 222-233): a garbage date
(`none`, whose `new Date` is Invalid) makes the NaN comparison false, as
in the source. -/
def chronoViolated (data : List RawRecord) : Bool :=
  (data.zip data.tail).any
    (fun p =>
      match p.2.date, p.1.date with
      | some b, some a => dateLt b a
      | _, _ => false)

/-- Function `parseCSVWithValidation` (portfolioAnalysis.ts lines 80-236).
Messages are embedded as `ParseMsg` constructors carrying the interpolated
data; the surrounding try/catch is a no-op in this total embedding. -/
def parseCSVWithValidation (csvText : String) : ParseResult :=
  let cs := csvText.data
  if trimChars cs = [] then ⟨[], [ParseMsg.emptyFile], []⟩
  else
    let lines := splitOnChar '\n' (trimChars cs)
    if lines.length < 3 then ⟨[], [ParseMsg.tooFewRows], []⟩
    else
      let rows := lines.drop 2
      let st := rows.enum.foldl (fun s p => processRow (p.1 + 3) s p.2) ⟨[], [], []⟩
      let errors2 :=
        if st.data = [] ∧ st.errors = [] then st.errors ++ [ParseMsg.noValidData]
        else st.errors
      let warnings2 :=
        st.warnings ++ (if chronoViolated st.data then [ParseMsg.notChronological] else [])
      ⟨st.data, errors2, warnings2⟩

/-- Function `parseCSV` (portfolioAnalysis.ts lines 72-78): the
all-or-nothing entry point.  The thrown `Error` concatenates the collected
error messages; it is embedded as `Except.error` carrying exactly that
error list in order. -/
def parseCSV (csvText : String) : Except (List ParseMsg) (List RawRecord) :=
  let result := parseCSVWithValidation csvText
  if 0 < result.errors.length then Except.error result.errors
  else Except.ok result.data

/-- Embedding of `new Date(year, month0, day)` component normalization for
the domain reachable from `parsePortfolioDate` (month0 in 0..11, day in
1..31): day overflow carries into the next month (at most one carry, since
every month has at least 28 days), December overflowing into January of
the next year.  The result is the calendar date whose components
`getFullYear` / `getMonth` / `getDate` report. -/
def jsMakeDateNorm (y m0 d : ℕ) : CalDate :=
  let len := daysInMonth y (m0 + 1)
  if d ≤ len then ⟨y, m0 + 1, d⟩
  else if m0 = 11 then ⟨y + 1, 1, d - len⟩
  else ⟨y, m0 + 2, d - len⟩

/-- Function `parsePortfolioDate` (dateUtils.ts lines 10-40), modelled on
the three integer groups of a `DD/MM/YYYY` token (the string split and
`parseInt` of the three groups are not re-modelled; `day`, `month`, `year`
are their values, necessarily non-NaN natural numbers for such tokens).
The source subtracts 1 from the month (JavaScript months are 0-based),
range-checks, constructs the date, and returns it only if the components
survive the round trip (which rejects impossible dates like 30 Feb). -/
def parsePortfolioDate (day month year : ℕ) : Option CalDate :=
  let month0 : ℤ := (month : ℤ) - 1
  if (day : ℤ) < 1 ∨ (31 : ℤ) < day ∨ month0 < 0 ∨ 11 < month0 ∨
      (year : ℤ) < 1900 ∨ (2100 : ℤ) < year then none
  else
    let date := jsMakeDateNorm year month0.toNat day
    if date.day = day ∧ (date.month : ℤ) - 1 = month0 ∧ date.year = year then some date
    else none

/-- A row whose share-value field is non-positive leaves the data
unchanged; any other processed row appends one record with positive share
value. -/
theorem finishRow_data_cases (ln : ℕ) (st : PState) (values : List (List Char))
    (theDate : Option CalDate) :
    (finishRow ln st values theDate).data = st.data ∨
    ∃ r, (finishRow ln st values theDate).data = st.data ++ [r] ∧ 0 < r.shareValue := by
  simp only [finishRow]
  by_cases h : (parseNumericValue (values.getD 5 [])).1 ≤ 0
  · rw [if_pos h]
    exact Or.inl rfl
  · rw [if_neg h]
    exact Or.inr ⟨_, rfl, not_le.mp h⟩

/-- Every branch of the row handler either leaves the record list
unchanged or appends one record with positive share value. -/
theorem processRow_data_cases (ln : ℕ) (st : PState) (line : List Char) :
    (processRow ln st line).data = st.data ∨
    ∃ r, (processRow ln st line).data = st.data ++ [r] ∧ 0 < r.shareValue := by
  simp only [processRow]
  repeat' split
  all_goals first
    | exact Or.inl rfl
    | exact finishRow_data_cases _ _ _ _

/-- The row loop preserves positivity of every accumulated share value. -/
theorem foldRows_sharePos (rows : List (ℕ × List Char)) :
    ∀ st : PState, (∀ r ∈ st.data, 0 < r.shareValue) →
    ∀ r ∈ (rows.foldl (fun s p => processRow (p.1 + 3) s p.2) st).data, 0 < r.shareValue := by
  induction rows with
  | nil => exact fun st h => h
  | cons p rest ih =>
    intro st h
    rw [List.foldl_cons]
    apply ih
    rcases processRow_data_cases (p.1 + 3) st p.2 with hc | ⟨r, hr, hpos⟩
    · rw [hc]
      exact h
    · rw [hr]
      intro x hx
      rcases List.mem_append.mp hx with hx | hx
      · exact h x hx
      · rw [List.mem_singleton.mp hx]
        exact hpos

/-- C6: every record produced by the validating parser has strictly
positive share value, and a row whose share-value field parses to a
non-positive number is skipped with a warning (its errors are untouched
and it contributes no record). -/
theorem share_value_positive_invariant :
    (∀ (csvText : String), ∀ r ∈ (parseCSVWithValidation csvText).data, 0 < r.shareValue) ∧
    (∀ (ln : ℕ) (st : PState) (values : List (List Char)) (theDate : Option CalDate),
      (parseNumericValue (values.getD 5 [])).1 ≤ 0 →
      finishRow ln st values theDate =
        { st with warnings := (st.warnings ++ numericWarningsOf ln values) ++
            [ParseMsg.nonPositiveShareValue ln] }) := by
  constructor
  · intro csvText
    simp only [parseCSVWithValidation]
    split
    · simp
    · split
      · simp
      · exact foldRows_sharePos _ _ (by simp)
  · intro ln st values theDate h
    simp only [finishRow]
    rw [if_pos h]

/-- Witness for C6: a one-row CSV whose record has share value 5. -/
theorem share_value_positive_invariant_witness :
    (⟨some ⟨2020, 1, 1⟩, 1, 2, 3, 4, 5, 6, 7, 8, 9⟩ : RawRecord) ∈
      (parseCSVWithValidation ("Sheet\nDate,SHA\n01/01/2020,1,2,3,4,5,6,7,8,9")).data ∧
    (0 : ℚ) < (5 : ℚ) :=
  ⟨by with_unfolding_all decide,
    share_value_positive_invariant.1 ("Sheet\nDate,SHA\n01/01/2020,1,2,3,4,5,6,7,8,9")
      ⟨some ⟨2020, 1, 1⟩, 1, 2, 3, 4, 5, 6, 7, 8, 9⟩ (by with_unfolding_all decide)⟩

/-- A record whose share value equals the running peak leaves the
drawdown state unchanged (its drawdown percentage is 0, below the 0.1
threshold). -/
theorem ddStep_id_of_eq (st : DDState) (r : PortfolioData) (h : r.shareValue = st.currentPeak) :
    ddStep st r = st := by
  simp only [ddStep]
  rw [if_neg (by rw [h]; exact lt_irrefl _)]
  rw [h, sub_self, zero_div, zero_mul]
  rw [if_neg (by norm_num : ¬ (1 / 10 : ℚ) < 0)]

/-- A record strictly above the running peak, reached outside any open
episode, just moves the peak. -/
theorem ddStep_new_peak (st : DDState) (r : PortfolioData) (h : st.currentPeak < r.shareValue)
    (hdd : st.inDrawdown = false) :
    ddStep st r =
      { st with
          currentPeak := r.shareValue
          currentPeakDate := r.date
          inDrawdown := false
          maxDrawdownPercent := 0 } := by
  simp only [ddStep, hdd]
  rw [if_pos h]
  simp

/-- Over a non-decreasing tail chained below the current peak, the
drawdown scan opens no episode and emits none. -/
theorem ddFold_monotone (l : List PortfolioData) :
    ∀ st : DDState, st.inDrawdown = false → st.drawdowns = [] →
    List.Chain (· ≤ ·) st.currentPeak (l.map (fun r => r.shareValue)) →
    (l.foldl ddStep st).inDrawdown = false ∧ (l.foldl ddStep st).drawdowns = [] := by
  induction l with
  | nil => exact fun st h1 h2 _ => ⟨h1, h2⟩
  | cons r rest ih =>
    intro st h1 h2 hch
    rw [List.map_cons, List.chain_cons] at hch
    rw [List.foldl_cons]
    rcases lt_or_eq_of_le hch.1 with hlt | heq
    · rw [ddStep_new_peak st r hlt h1]
      exact ih _ rfl h2 hch.2
    · rw [ddStep_id_of_eq st r heq.symm]
      exact ih st h1 h2 (heq ▸ hch.2)

/-- The Drawdown Extractor on a non-decreasing share-value series: empty
episode list and no current drawdown. -/
theorem drawdownAnalysis_monotone (data : List PortfolioData)
    (h : List.Chain' (· ≤ ·) (data.map (fun r => r.shareValue))) :
    (calculateDrawdownAnalysis data).allDrawdowns = [] ∧
    (calculateDrawdownAnalysis data).currentDrawdown = none := by
  cases data with
  | nil => exact ⟨rfl, rfl⟩
  | cons d0 rest =>
    by_cases hlen : (d0 :: rest).length < 2
    · unfold calculateDrawdownAnalysis
      rw [if_pos hlen]
      exact ⟨rfl, rfl⟩
    · have hch : List.Chain (· ≤ ·) d0.shareValue (rest.map (fun r => r.shareValue)) := by
        rw [List.map_cons] at h
        exact h
      obtain ⟨hf1, hf2⟩ :=
        ddFold_monotone rest ⟨d0.shareValue, d0.date, false, none, 0, d0.date, d0.shareValue, []⟩
          rfl rfl hch
      simp only [calculateDrawdownAnalysis]
      rw [if_neg hlen]
      simp only [hf1, hf2]
      simp

/-- One step of the running-peak max-drawdown scan on a value at or above
the peak yields a zero drawdown and moves the peak to that value. -/
theorem mddStep_peak (peak v : ℚ) (h : peak ≤ v) : mddStep (peak, 0) v = (v, 0) := by
  rcases lt_or_eq_of_le h with hlt | heq
  · simp only [mddStep]
    rw [if_pos hlt, sub_self, zero_div, zero_mul]
    rw [if_neg (lt_irrefl 0)]
  · subst heq
    simp only [mddStep]
    rw [if_neg (lt_irrefl peak), sub_self, zero_div, zero_mul]
    rw [if_neg (lt_irrefl 0)]

/-- The max-drawdown scan over a non-decreasing chain stays at 0. -/
theorem mddFold_zero (l : List ℚ) : ∀ peak : ℚ, List.Chain (· ≤ ·) peak l →
    (l.foldl mddStep (peak, 0)).2 = 0 := by
  induction l with
  | nil => exact fun _ _ => rfl
  | cons v rest ih =>
    intro peak hch
    rw [List.chain_cons] at hch
    rw [List.foldl_cons, mddStep_peak peak v hch.1]
    exact ih v hch.2

/-- Maximum drawdown of a non-decreasing value series is 0. -/
theorem maxDrawdownOf_zero (values : List ℚ) (h : List.Chain' (· ≤ ·) values) :
    maxDrawdownOf values = 0 := by
  cases values with
  | nil => rfl
  | cons v rest => exact mddFold_zero rest v h

/-- Rounding zero to any number of decimals gives zero. -/
theorem jsToFixed_zero (n : ℕ) : jsToFixed n 0 = 0 := by
  unfold jsToFixed
  rw [zero_mul, zero_add]
  rw [show floorQ (1 / 2 : ℚ) = 0 from by with_unfolding_all decide]
  simp

/-- C9: on a record sequence with monotonically increasing (non-
decreasing) share values the Risk Engine reports zero max drawdown and
the Drawdown Extractor returns an empty episode list and no current
drawdown. -/
theorem monotone_series_no_drawdown (data : List PortfolioData) (riskFreeRate : ℚ)
    (h : List.Chain' (· ≤ ·) (data.map (fun r => r.shareValue))) :
    (calculateRiskMetrics data riskFreeRate).maxDrawdown = 0 ∧
    (calculateDrawdownAnalysis data).allDrawdowns = [] ∧
    (calculateDrawdownAnalysis data).currentDrawdown = none := by
  refine ⟨?_, (drawdownAnalysis_monotone data h).1, (drawdownAnalysis_monotone data h).2⟩
  by_cases hlen : data.length < 2
  · unfold calculateRiskMetrics
    rw [if_pos hlen]
  · simp only [calculateRiskMetrics]
    rw [if_neg hlen]
    simp only []
    rw [maxDrawdownOf_zero _ h, jsToFixed_zero]

/-- Witness for C9 at the two-record increasing series 1, 2. -/
theorem monotone_series_no_drawdown_witness :
    List.Chain' (· ≤ ·)
      (([mkShareRecord ⟨2020, 1, 1⟩ 1, mkShareRecord ⟨2020, 1, 2⟩ 2]).map
        (fun r => r.shareValue)) ∧
    (calculateRiskMetrics [mkShareRecord ⟨2020, 1, 1⟩ 1, mkShareRecord ⟨2020, 1, 2⟩ 2]
      (3 / 100)).maxDrawdown = 0 ∧
    (calculateDrawdownAnalysis
      [mkShareRecord ⟨2020, 1, 1⟩ 1, mkShareRecord ⟨2020, 1, 2⟩ 2]).allDrawdowns = [] ∧
    (calculateDrawdownAnalysis
      [mkShareRecord ⟨2020, 1, 1⟩ 1, mkShareRecord ⟨2020, 1, 2⟩ 2]).currentDrawdown = none :=
  ⟨by norm_num [mkShareRecord, List.chain'_cons, List.chain'_singleton],
    monotone_series_no_drawdown [mkShareRecord ⟨2020, 1, 1⟩ 1, mkShareRecord ⟨2020, 1, 2⟩ 2]
      (3 / 100) (by norm_num [mkShareRecord, List.chain'_cons, List.chain'_singleton])⟩

/-- C5: for every DD/MM/YYYY token with day in 1..31, month in 1..12 and
year in 1900..2100, the Date Normalizer `parsePortfolioDate` succeeds and
round-trips to the same calendar date exactly when the token denotes a
real Gregorian calendar date (day at most the length of that month, with
leap years handled), and rejects every other combination in those ranges
(e.g. 30/02/2021 and 29/02/2019 fail while 29/02/2020 succeeds). -/
theorem date_normalizer_roundtrip (d m y : ℕ) (hd1 : 1 ≤ d) (hd2 : d ≤ 31)
    (hm1 : 1 ≤ m) (hm2 : m ≤ 12) (hy1 : 1900 ≤ y) (hy2 : y ≤ 2100) :
    (d ≤ daysInMonth y m → parsePortfolioDate d m y = some ⟨y, m, d⟩) ∧
    (daysInMonth y m < d → parsePortfolioDate d m y = none) := by
  have hrange : ¬((d : ℤ) < 1 ∨ (31 : ℤ) < (d : ℤ) ∨ (m : ℤ) - 1 < 0 ∨
      11 < (m : ℤ) - 1 ∨ (y : ℤ) < 1900 ∨ (2100 : ℤ) < (y : ℤ)) := by
    omega
  have hm0 : ((m : ℤ) - 1).toNat = m - 1 := by omega
  have hmm : m - 1 + 1 = m := by omega
  constructor
  · intro hreal
    simp only [parsePortfolioDate]
    rw [if_neg hrange, hm0]
    simp only [jsMakeDateNorm, hmm]
    rw [if_pos hreal]
    rw [if_pos ⟨rfl, rfl, rfl⟩]
  · intro hover
    simp only [parsePortfolioDate]
    rw [if_neg hrange, hm0]
    simp only [jsMakeDateNorm, hmm]
    rw [if_neg (by omega : ¬ d ≤ daysInMonth y m)]
    by_cases hm12 : m - 1 = 11
    · rw [if_pos hm12]
      rw [if_neg]
      intro hcon
      have := hcon.2.1
      simp only at this
      omega
    · rw [if_neg hm12]
      rw [if_neg]
      intro hcon
      have := hcon.2.1
      simp only at this
      omega

/-- Witness for C5 at the leap-year date 29/02/2020. -/
theorem date_normalizer_roundtrip_witness :
    (1 ≤ 29 ∧ 29 ≤ 31 ∧ 1 ≤ 2 ∧ 2 ≤ 12 ∧ 1900 ≤ 2020 ∧ 2020 ≤ 2100 ∧
      29 ≤ daysInMonth 2020 2) ∧
    parsePortfolioDate 29 2 2020 = some ⟨2020, 2, 29⟩ :=
  ⟨by decide,
    (date_normalizer_roundtrip 29 2 2020 (by decide) (by decide) (by decide) (by decide)
      (by decide) (by decide)).1 (by decide)⟩

/-- C7: the convenience entry point `parseCSV` fails exactly when the
validating parse collected a non-empty error list, its failure carries all
collected error messages in order, and on an empty error list it returns
exactly the parsed record sequence, regardless of warnings. -/
theorem parseCSV_all_or_nothing (csvText : String) :
    ((parseCSVWithValidation csvText).errors ≠ [] →
      parseCSV csvText = Except.error (parseCSVWithValidation csvText).errors) ∧
    ((parseCSVWithValidation csvText).errors = [] →
      parseCSV csvText = Except.ok (parseCSVWithValidation csvText).data) := by
  constructor
  · intro h
    simp only [parseCSV]
    rw [if_pos (List.length_pos.mpr h)]
  · intro h
    simp only [parseCSV]
    rw [if_neg (by simp [h])]

/-- Witness for C7 at the empty input, whose parse collects an error. -/
theorem parseCSV_all_or_nothing_witness :
    (parseCSVWithValidation ("")).errors ≠ [] ∧
    parseCSV ("") = Except.error (parseCSVWithValidation ("")).errors :=
  ⟨by with_unfolding_all decide,
    (parseCSV_all_or_nothing ("")).1 (by with_unfolding_all decide)⟩

/-- C8: on fewer than two records the Risk Engine returns the all-zero
metrics object and the Drawdown Extractor returns the zero-valued/empty
sentinel (zero max-drawdown episode, empty episode list, zero averages,
no current drawdown); both are total functions, so neither raises. -/
theorem degenerate_input_zero_sentinels (data : List PortfolioData) (riskFreeRate : ℚ)
    (h : data.length < 2) :
    calculateRiskMetrics data riskFreeRate = ⟨0, 0, 0, 0, 0⟩ ∧
    calculateDrawdownAnalysis data = emptyDrawdownAnalysis := by
  constructor
  · unfold calculateRiskMetrics
    rw [if_pos h]
  · unfold calculateDrawdownAnalysis
    rw [if_pos h]

/-- Witness for C8 at the empty record list. -/
theorem degenerate_input_zero_sentinels_witness :
    ([] : List PortfolioData).length < 2 ∧
    calculateRiskMetrics [] (3 / 100) = ⟨0, 0, 0, 0, 0⟩ ∧
    calculateDrawdownAnalysis ([] : List PortfolioData) = emptyDrawdownAnalysis :=
  ⟨by decide, degenerate_input_zero_sentinels [] (3 / 100) (by decide)⟩

/-- C10: per numeric field, the validating parser treats an empty field as
0 without a warning; a non-empty field whose cleaned-up contents fail to
parse as a number becomes 0 with a warning; and a parsed field is negated
exactly when the raw field contains an opening parenthesis, so a
parenthesized value that itself carries a minus sign, such as (-5),
yields a positive number. -/
theorem parseNumericValue_conventions (value : List Char) :
    (value = [] → parseNumericValue value = (0, false)) ∧
    (value ≠ [] → jsParseFloat (cleanNumeric value) = none →
      parseNumericValue value = (0, true)) ∧
    (∀ q : ℚ, value ≠ [] → jsParseFloat (cleanNumeric value) = some q →
      parseNumericValue value = ((if value.contains '(' then -q else q), false)) := by
  refine ⟨fun h => ?_, fun h hn => ?_, fun q h hq => ?_⟩
  · rw [parseNumericValue, if_pos h]
  · simp only [parseNumericValue]
    rw [if_neg h, hn]
  · simp only [parseNumericValue]
    rw [if_neg h, hq]

/-- Witness for C10 at the field (-5), which parses to positive 5 with no
warning. -/
theorem parseNumericValue_conventions_witness :
    parseNumericValue (("(-5)" : String).data) = (5, false) := by
  have h := (parseNumericValue_conventions (("(-5)" : String).data)).2.2 (-5)
    (by with_unfolding_all decide) (by with_unfolding_all decide)
  rw [h]
  with_unfolding_all decide

/-- Rounding zero to any number of decimals gives zero (real version). -/
theorem roundToR_zero (n : ℕ) : roundToR n 0 = 0 := by
  simp [roundToR]

/-- Counterexample to C3 as stated: on two same-year records whose SHA
level starts at 0, the SHA annual return is Infinity, not 0 — the
annual-return division by a year's first benchmark level has no zero
guard. -/
theorem zero_denominator_counterexample :
    (calculateAnnualReturns zeroBenchData).map (fun e => e.shaReturn) = [JSVal.inf] ∧
    (JSVal.inf : JSVal ℚ) ≠ JSVal.fin 0 := by
  constructor <;> with_unfolding_all decide

/-- C3 (amended): the engines are total functions (nothing raises), and
every GUARDED zero-denominator/zero-variance site substitutes 0: the
correlation's variance accumulators, beta's benchmark variance, Sharpe's
volatility, Sortino's downside deviation, and the information ratio's
tracking error.  (The unguarded sites — a year's first benchmark level in
the annual returns and a benchmark's first value in the total returns —
produce Infinity/NaN instead; see the counterexample.) -/
theorem zero_denominator_guards :
    (∀ v1 v2 : List ℝ, corrSum1 v1 v2 = 0 ∨ corrSum2 v1 v2 = 0 →
      calculateCorrelation v1 v2 = 0) ∧
    (∀ p b : List ℚ, betaBenchmarkVariance p b = 0 → calculateBeta p b = 0) ∧
    (∀ (data : List PortfolioData) (rfr : ℚ), volatilityOf data = 0 →
      (calculateRiskMetrics data rfr).sharpeRatio = 0) ∧
    (∀ (data : List PortfolioData) (rfr : ℚ), downsideDeviationOf data = 0 →
      (calculateRiskMetrics data rfr).sortinioRatio = 0) ∧
    (∀ (name : BenchName) (pv bv : List ℚ),
      calculateTrackingError (calculateReturns pv) (calculateReturns bv) = 0 →
      (benchComparisonFor name pv bv).informationRatio = JSVal.fin 0) := by
  refine ⟨?_, ?_, ?_, ?_, ?_⟩
  · intro v1 v2 h
    unfold calculateCorrelation
    by_cases hn : min v1.length v2.length = 0
    · rw [if_pos hn]
    · rw [if_neg hn]
      rcases h with h | h
      · rw [h, zero_mul, Real.sqrt_zero, if_pos rfl]
      · rw [h, mul_zero, Real.sqrt_zero, if_pos rfl]
  · intro p b h
    unfold calculateBeta
    by_cases hn : min p.length b.length = 0
    · rw [if_pos hn]
    · rw [if_neg hn, if_neg (by simp [h])]
  · intro data rfr h
    simp only [calculateRiskMetrics]
    by_cases hlen : data.length < 2
    · rw [if_pos hlen]
    · rw [if_neg hlen]
      simp only [h, ne_eq, not_true_eq_false, if_false, ite_false, roundToR_zero]
  · intro data rfr h
    simp only [calculateRiskMetrics]
    by_cases hlen : data.length < 2
    · rw [if_pos hlen]
    · rw [if_neg hlen]
      simp only [h, ne_eq, not_true_eq_false, if_false, ite_false, roundToR_zero]
  · intro name pv bv h
    simp only [benchComparisonFor]
    rw [if_neg (by simp [h])]
    simp [jsValToFixedR, roundToR_zero]

/-- Witness for the amended C3 at a constant benchmark-return sequence:
its beta variance is 0 and beta is 0. -/
theorem zero_denominator_guards_witness :
    betaBenchmarkVariance ([1, 2] : List ℚ) ([3, 3] : List ℚ) = 0 ∧
    calculateBeta ([1, 2] : List ℚ) ([3, 3] : List ℚ) = 0 :=
  ⟨by with_unfolding_all decide,
    zero_denominator_guards.2.1 ([1, 2] : List ℚ) ([3, 3] : List ℚ)
      (by with_unfolding_all decide)⟩

/-- Membership under the first-occurrence fold. -/
theorem mem_firstOccurrences_foldl (l : List ℕ) :
    ∀ (acc : List ℕ) (x : ℕ),
      x ∈ l.foldl (fun acc y => if y ∈ acc then acc else acc ++ [y]) acc ↔
        x ∈ acc ∨ x ∈ l := by
  induction l with
  | nil => simp
  | cons y rest ih =>
    intro acc x
    rw [List.foldl_cons]
    by_cases hy : y ∈ acc
    · rw [if_pos hy, ih]
      simp only [List.mem_cons]
      constructor
      · rintro (h | h)
        · exact Or.inl h
        · exact Or.inr (Or.inr h)
      · rintro (h | h | h)
        · exact Or.inl h
        · exact Or.inl (h ▸ hy)
        · exact Or.inr h
    · rw [if_neg hy, ih]
      simp only [List.mem_append, List.mem_singleton, List.mem_cons]
      tauto

/-- The first-occurrence fold preserves distinctness. -/
theorem nodup_firstOccurrences_foldl (l : List ℕ) :
    ∀ acc : List ℕ, acc.Nodup →
      (l.foldl (fun acc y => if y ∈ acc then acc else acc ++ [y]) acc).Nodup := by
  induction l with
  | nil => exact fun _ h => h
  | cons y rest ih =>
    intro acc h
    rw [List.foldl_cons]
    by_cases hy : y ∈ acc
    · rw [if_pos hy]
      exact ih acc h
    · rw [if_neg hy]
      apply ih
      rw [List.nodup_append]
      refine ⟨h, List.nodup_singleton y, ?_⟩
      intro a ha hay
      rw [List.mem_singleton] at hay
      exact hy (hay ▸ ha)

/-- Appending one element to the scanned list. -/
theorem firstOccurrences_concat (l : List ℕ) (y : ℕ) :
    firstOccurrences (l ++ [y]) =
      if y ∈ firstOccurrences l then firstOccurrences l
      else firstOccurrences l ++ [y] := by
  unfold firstOccurrences
  rw [List.foldl_append]
  rfl

/-- The first-occurrence list has the same members as the list. -/
theorem mem_firstOccurrences (l : List ℕ) (x : ℕ) : x ∈ firstOccurrences l ↔ x ∈ l := by
  unfold firstOccurrences
  rw [mem_firstOccurrences_foldl]
  simp

/-- The first-occurrence list is distinct. -/
theorem nodup_firstOccurrences (l : List ℕ) : (firstOccurrences l).Nodup :=
  nodup_firstOccurrences_foldl l [] List.nodup_nil

/-- Appending one record to the grouped years. -/
theorem yearlyMap_concat (data : List PortfolioData) (r : PortfolioData) :
    yearlyMap (data ++ [r]) = updateYearly (yearlyMap data) r := by
  unfold yearlyMap
  rw [List.foldl_append]
  rfl

/-- Characterization of the year-keyed map: its keys are the distinct
years in first-occurrence order, and each entry holds the first and last
records of its year in input order. -/
theorem yearlyMap_char (data : List PortfolioData) :
    (yearlyMap data).map (fun e => e.1) =
      firstOccurrences (data.map (fun r => r.date.year)) ∧
    ∀ e ∈ yearlyMap data,
      (data.filter (fun x => decide (x.date.year = e.1))).head? = some e.2.1 ∧
      (data.filter (fun x => decide (x.date.year = e.1))).getLast? = some e.2.2 := by
  induction data using List.reverseRecOn with
  | nil => exact ⟨rfl, by simp [yearlyMap]⟩
  | append_singleton data r ih =>
    rw [yearlyMap_concat]
    simp only [updateYearly]
    rw [List.map_append,
      show List.map (fun r : PortfolioData => r.date.year) [r] = [r.date.year] from rfl,
      firstOccurrences_concat]
    by_cases hmem : (yearlyMap data).any (fun e => decide (e.1 = r.date.year)) = true
    · rw [if_pos hmem]
      obtain ⟨e0, he0, he0y⟩ := List.any_eq_true.mp hmem
      have hyin : r.date.year ∈ firstOccurrences (data.map fun r => r.date.year) := by
        rw [← ih.1]
        exact List.mem_map.mpr ⟨e0, he0, of_decide_eq_true he0y⟩
      rw [if_pos hyin]
      constructor
      · rw [List.map_map]
        rw [show ((fun e : ℕ × PortfolioData × PortfolioData => e.1) ∘
            (fun e : ℕ × PortfolioData × PortfolioData =>
              if e.1 = r.date.year then (e.1, e.2.1, r) else e)) =
            (fun e : ℕ × PortfolioData × PortfolioData =>
              (if e.1 = r.date.year then (e.1, e.2.1, r) else e).1) from rfl]
        rw [← ih.1]
        apply List.map_congr_left
        intro e _
        by_cases h : e.1 = r.date.year
        · rw [if_pos h]
        · rw [if_neg h]
      · intro e' he'
        obtain ⟨e, he, hupd⟩ := List.mem_map.mp he'
        obtain ⟨hh, hl⟩ := ih.2 e he
        by_cases h : e.1 = r.date.year
        · rw [if_pos h] at hupd
          subst hupd
          rw [List.filter_append]
          have hfr : List.filter (fun x => decide (x.date.year = (e.1, e.2.1, r).1)) [r] =
              [r] := by
            simp [h.symm]
          rw [hfr]
          constructor
          · rw [List.head?_append]
            have : (data.filter (fun x => decide (x.date.year = e.1))).head? =
                some e.2.1 := hh
            rw [this]
            rfl
          · rw [List.getLast?_concat]
        · rw [if_neg h] at hupd
          subst hupd
          rw [List.filter_append]
          have hfr : List.filter (fun x => decide (x.date.year = e.1)) [r] = [] := by
            simp
            intro hEq
            exact h hEq.symm
          rw [hfr, List.append_nil]
          exact ⟨hh, hl⟩
    · rw [if_neg hmem]
      have hynot : r.date.year ∉ firstOccurrences (data.map fun r => r.date.year) := by
        rw [← ih.1]
        intro hc
        obtain ⟨e, he, hey⟩ := List.mem_map.mp hc
        exact hmem (List.any_eq_true.mpr ⟨e, he, decide_eq_true hey⟩)
      rw [if_neg hynot]
      have hfilter_nil :
          data.filter (fun x => decide (x.date.year = r.date.year)) = [] := by
        rw [List.filter_eq_nil_iff]
        intro a ha hc
        apply hynot
        rw [mem_firstOccurrences]
        exact List.mem_map.mpr ⟨a, ha, of_decide_eq_true hc⟩
      constructor
      · rw [List.map_append, ih.1]
        rfl
      · intro e' he'
        rcases List.mem_append.mp he' with he' | he'
        · obtain ⟨hh, hl⟩ := ih.2 e' he'
          have hne : r.date.year ≠ e'.1 := by
            intro hc
            apply hmem
            exact List.any_eq_true.mpr ⟨e', he', decide_eq_true hc.symm⟩
          rw [List.filter_append]
          have hfr : List.filter (fun x => decide (x.date.year = e'.1)) [r] = [] := by
            simp [hne]
          rw [hfr, List.append_nil]
          exact ⟨hh, hl⟩
        · rw [List.mem_singleton.mp he']
          rw [List.filter_append]
          have hfr : List.filter
              (fun x => decide (x.date.year = (r.date.year, r, r).1)) [r] = [r] := by
            simp
          rw [hfr]
          have hfd : data.filter
              (fun x => decide (x.date.year = (r.date.year, r, r).1)) = [] := hfilter_nil
          rw [hfd]
          exact ⟨rfl, rfl⟩

/-- Percentage change of finite values with a nonzero base is finite. -/
theorem jsPctChange_fin {α : Type} [LinearOrderedField α] (f l : α) (hf : f ≠ 0) :
    jsPctChange f l = JSVal.fin ((l - f) / f * 100) := by
  simp only [jsPctChange, JSVal.div, JSVal.mul]
  rw [if_neg hf]

/-- The year component of a specification year entry. -/
theorem specYearEntry_year (data : List PortfolioData) (y : ℕ) :
    (specYearEntry data y).year = y := rfl

/-- Under the nonzero-first-value hypothesis, each grouped entry maps to
the specification's per-year entry. -/
theorem yearly_entry_spec (data : List PortfolioData)
    (h : ∀ r ∈ data,
      ((data.filter (fun x => decide (x.date.year = r.date.year))).headD r).shareValue ≠ 0 ∧
      ((data.filter (fun x => decide (x.date.year = r.date.year))).headD r).sha ≠ 0 ∧
      ((data.filter (fun x => decide (x.date.year = r.date.year))).headD r).she ≠ 0 ∧
      ((data.filter (fun x => decide (x.date.year = r.date.year))).headD r).csi300 ≠ 0) :
    ∀ e ∈ yearlyMap data, mkAnnualReturn e.1 e.2.1 e.2.2 = specYearEntry data e.1 := by
  intro e he
  obtain ⟨hh, hl⟩ := (yearlyMap_char data).2 e he
  have hfmem : e.2.1 ∈ data.filter (fun x => decide (x.date.year = e.1)) :=
    List.mem_of_mem_head? (Option.mem_def.mpr hh)
  have hyear : e.2.1.date.year = e.1 := by
    simpa using (List.mem_filter.mp hfmem).2
  have hdata : e.2.1 ∈ data := (List.mem_filter.mp hfmem).1
  have hnz := h e.2.1 hdata
  rw [hyear] at hnz
  rw [List.headD_eq_head?, hh, Option.getD_some] at hnz
  simp only [specYearEntry, mkAnnualReturn]
  rw [List.headD_eq_head?, List.getLastD_eq_getLast?, hh, hl]
  simp only [Option.getD_some]
  rw [jsPctChange_fin _ _ hnz.1, jsPctChange_fin _ _ hnz.2.1,
    jsPctChange_fin _ _ hnz.2.2.1, jsPctChange_fin _ _ hnz.2.2.2]

/-- Counterexample to C4 as stated: a year containing exactly one record
whose SHA level is 0 yields NaN for the SHA return, not 0. -/
theorem single_record_year_counterexample :
    (calculateAnnualReturns zeroSingleData).map (fun e => e.shaReturn) = [JSVal.nan] ∧
    (JSVal.nan : JSVal ℚ) ≠ JSVal.fin 0 := by
  constructor <;> with_unfolding_all decide

/-- C4 (amended): provided each year's first record has nonzero values in
all four series (guaranteed for shareValue by the parser invariant, not
for the benchmarks), the annual-return computation groups records by the
calendar year of their date keeping the first and last record per year in
input order (no re-sorting), computes each series' percentage change
between those two records, and emits the years sorted ascending; a year
with exactly one record yields a zero return for every series (first
equals last makes every percentage change 0).  (With a zero first value
the affected series' return is NaN/Infinity; see the counterexample.) -/
theorem annual_returns_grouping (data : List PortfolioData)
    (h : ∀ r ∈ data,
      ((data.filter (fun x => decide (x.date.year = r.date.year))).headD r).shareValue ≠ 0 ∧
      ((data.filter (fun x => decide (x.date.year = r.date.year))).headD r).sha ≠ 0 ∧
      ((data.filter (fun x => decide (x.date.year = r.date.year))).headD r).she ≠ 0 ∧
      ((data.filter (fun x => decide (x.date.year = r.date.year))).headD r).csi300 ≠ 0) :
    calculateAnnualReturns data = annualReturnsSpec data := by
  have hchar := yearlyMap_char data
  have hpt := yearly_entry_spec data h
  have hmapeq : (yearlyMap data).map (fun e => mkAnnualReturn e.1 e.2.1 e.2.2) =
      (firstOccurrences (data.map (fun r => r.date.year))).map (specYearEntry data) := by
    rw [List.map_congr_left hpt]
    rw [show (fun e : ℕ × PortfolioData × PortfolioData => specYearEntry data e.1) =
        (specYearEntry data) ∘ (fun e : ℕ × PortfolioData × PortfolioData => e.1) from rfl]
    rw [← List.map_map, hchar.1]
  have hyearly : data.foldl updateYearly [] = yearlyMap data := rfl
  simp only [calculateAnnualReturns, annualReturnsSpec]
  rw [hyearly, hmapeq]
  have htransA : ∀ a b c : AnnualReturn, decide (a.year ≤ b.year) = true →
      decide (b.year ≤ c.year) = true → decide (a.year ≤ c.year) = true := fun a b c h1 h2 =>
    decide_eq_true (Nat.le_trans (of_decide_eq_true h1) (of_decide_eq_true h2))
  have htotalA : ∀ a b : AnnualReturn,
      (decide (a.year ≤ b.year) || decide (b.year ≤ a.year)) = true := by
    intro a b
    rcases Nat.le_total a.year b.year with hab | hab <;> simp [hab]
  have htransN : ∀ a b c : ℕ, decide (a ≤ b) = true → decide (b ≤ c) = true →
      decide (a ≤ c) = true := fun a b c h1 h2 =>
    decide_eq_true (Nat.le_trans (of_decide_eq_true h1) (of_decide_eq_true h2))
  have htotalN : ∀ a b : ℕ, (decide (a ≤ b) || decide (b ≤ a)) = true := by
    intro a b
    rcases Nat.le_total a b with hab | hab <;> simp [hab]
  set F := firstOccurrences (data.map (fun r => r.date.year)) with hF
  set C := F.map (specYearEntry data) with hC
  have hp1 : (C.mergeSort (fun a b => decide (a.year ≤ b.year))).Perm C :=
    List.mergeSort_perm _ _
  have hp2 : ((F.mergeSort (fun a b => decide (a ≤ b))).map (specYearEntry data)).Perm C :=
    (List.mergeSort_perm F _).map _
  have hperm := hp1.trans hp2.symm
  have hCyears : C.map (fun a => a.year) = F := by
    rw [hC, List.map_map]
    rw [show ((fun a : AnnualReturn => a.year) ∘ specYearEntry data) = id from
      funext fun y => specYearEntry_year data y]
    exact List.map_id F
  have hs1 : List.Pairwise (fun a b : AnnualReturn => a.year ≤ b.year)
      (C.mergeSort (fun a b => decide (a.year ≤ b.year))) :=
    (List.sorted_mergeSort htransA htotalA C).imp fun hab => of_decide_eq_true hab
  have hs2 : List.Pairwise (fun a b : AnnualReturn => a.year ≤ b.year)
      ((F.mergeSort (fun a b => decide (a ≤ b))).map (specYearEntry data)) := by
    rw [List.pairwise_map]
    have := (List.sorted_mergeSort htransN htotalN F).imp
      (fun hab => of_decide_eq_true hab)
    exact this.imp fun {a b} hab => by
      rw [specYearEntry_year, specYearEntry_year]
      exact hab
  have hnF : F.Nodup := nodup_firstOccurrences _
  have hnd1 : List.Pairwise (fun a b : AnnualReturn => a.year ≠ b.year)
      (C.mergeSort (fun a b => decide (a.year ≤ b.year))) := by
    apply List.pairwise_map.mp
    have hpm := hp1.map (fun a : AnnualReturn => a.year)
    rw [hCyears] at hpm
    exact hpm.nodup_iff.mpr hnF
  have hnd2 : List.Pairwise (fun a b : AnnualReturn => a.year ≠ b.year)
      ((F.mergeSort (fun a b => decide (a ≤ b))).map (specYearEntry data)) := by
    apply List.pairwise_map.mp
    have hpm := hp2.map (fun a : AnnualReturn => a.year)
    rw [hCyears] at hpm
    exact hpm.nodup_iff.mpr hnF
  have hstrict1 := (hs1.and hnd1).imp
    (fun {a b} hab => Nat.lt_of_le_of_ne hab.1 hab.2)
  have hstrict2 := (hs2.and hnd2).imp
    (fun {a b} hab => Nat.lt_of_le_of_ne hab.1 hab.2)
  haveI : IsAntisymm AnnualReturn (fun a b => a.year < b.year) :=
    ⟨fun a b h1 h2 => absurd (Nat.lt_trans h1 h2) (Nat.lt_irrefl _)⟩
  exact List.eq_of_perm_of_sorted hperm hstrict1 hstrict2

/-- Witness for the amended C4 at the spec's two-year example. -/
theorem annual_returns_grouping_witness :
    (∀ r ∈ c4Data,
      ((c4Data.filter (fun x => decide (x.date.year = r.date.year))).headD r).shareValue ≠ 0 ∧
      ((c4Data.filter (fun x => decide (x.date.year = r.date.year))).headD r).sha ≠ 0 ∧
      ((c4Data.filter (fun x => decide (x.date.year = r.date.year))).headD r).she ≠ 0 ∧
      ((c4Data.filter (fun x => decide (x.date.year = r.date.year))).headD r).csi300 ≠ 0) ∧
    calculateAnnualReturns c4Data = annualReturnsSpec c4Data :=
  ⟨by with_unfolding_all decide,
    annual_returns_grouping c4Data (by with_unfolding_all decide)⟩

/-- A sum of squared deviations is nonnegative. -/
theorem sq_dev_sum_nonneg (l : List ℝ) (m : ℝ) :
    0 ≤ (l.map (fun x => (x - m) * (x - m))).sum := by
  apply List.sum_nonneg
  intro x hx
  obtain ⟨a, _, rfl⟩ := List.mem_map.mp hx
  exact mul_self_nonneg _

/-- A sum of squared deviations vanishes exactly on constant data. -/
theorem sq_dev_sum_eq_zero_iff (l : List ℝ) (m : ℝ) :
    (l.map (fun x => (x - m) * (x - m))).sum = 0 ↔ ∀ x ∈ l, x = m := by
  induction l with
  | nil => simp
  | cons a t ih =>
    rw [List.map_cons, List.sum_cons,
      add_eq_zero_iff_of_nonneg (mul_self_nonneg _) (sq_dev_sum_nonneg t m),
      mul_self_eq_zero, sub_eq_zero, ih]
    constructor
    · rintro ⟨h1, h2⟩ x hx
      rcases List.mem_cons.mp hx with rfl | hx
      · exact h1
      · exact h2 x hx
    · intro h
      exact ⟨h a (List.mem_cons_self a t), fun x hx => h x (List.mem_cons_of_mem _ hx)⟩

/-- Sum of the deviations from a constant. -/
theorem sum_map_sub_const (l : List ℝ) (c : ℝ) :
    (l.map (fun x => x - c)).sum = l.sum - l.length * c := by
  induction l with
  | nil => simp
  | cons a t ih =>
    simp only [List.map_cons, List.sum_cons, List.length_cons, ih]
    push_cast
    ring

/-- The deviations from a list's own mean sum to zero. -/
theorem sum_sub_mean (l : List ℝ) (hne : l ≠ []) :
    (l.map (fun x => x - l.sum / (l.length : ℝ))).sum = 0 := by
  have hlen : ((l.length : ℝ)) ≠ 0 := by
    simp [List.length_eq_zero, hne]
  rw [sum_map_sub_const]
  field_simp

/-- Deviation products against a constant left column factor out. -/
theorem zip_const_left_sum (t1 : List ℝ) (c m1 m2 : ℝ) :
    ∀ t2 : List ℝ, (∀ x ∈ t1, x = c) → t1.length = t2.length →
      ((t1.zip t2).map (fun p => (p.1 - m1) * (p.2 - m2))).sum =
        (c - m1) * (t2.map (fun y => y - m2)).sum := by
  induction t1 with
  | nil =>
    intro t2 _ hlen
    cases t2 with
    | nil => simp
    | cons b t => simp at hlen
  | cons a s ih =>
    intro t2 hc hlen
    cases t2 with
    | nil => simp at hlen
    | cons b t =>
      simp only [List.zip_cons_cons, List.map_cons, List.sum_cons]
      rw [hc a (List.mem_cons_self a s),
        ih t (fun x hx => hc x (List.mem_cons_of_mem _ hx)) (by simpa using hlen)]
      ring

/-- Deviation products against a constant right column factor out. -/
theorem zip_const_right_sum (t1 : List ℝ) (c m1 m2 : ℝ) :
    ∀ t2 : List ℝ, (∀ y ∈ t2, y = c) → t1.length = t2.length →
      ((t1.zip t2).map (fun p => (p.1 - m1) * (p.2 - m2))).sum =
        (c - m2) * (t1.map (fun x => x - m1)).sum := by
  induction t1 with
  | nil =>
    intro t2 _ hlen
    cases t2 with
    | nil => simp
    | cons b t => simp at hlen
  | cons a s ih =>
    intro t2 hc hlen
    cases t2 with
    | nil => simp at hlen
    | cons b t =>
      simp only [List.zip_cons_cons, List.map_cons, List.sum_cons]
      rw [hc b (List.mem_cons_self b t),
        ih t (fun y hy => hc y (List.mem_cons_of_mem _ hy)) (by simpa using hlen)]
      ring

/-- A zero numerator forces a zero correlation, whatever the
denominator. -/
theorem calculateCorrelation_eq_zero_of_num (v1 v2 : List ℝ)
    (h : corrNumerator v1 v2 = 0) : calculateCorrelation v1 v2 = 0 := by
  unfold calculateCorrelation
  split_ifs <;> simp [h]

/-- Zero standard deviation means every element equals the mean. -/
theorem listStdDev_eq_zero (l : List ℝ) (hne : l ≠ []) (h : listStdDev l = 0) :
    ∀ x ∈ l, x = l.sum / (l.length : ℝ) := by
  have hlen : (0 : ℝ) < (l.length : ℝ) := by
    have := List.length_pos.mpr hne
    exact_mod_cast this
  unfold listStdDev listVariance listMean at h
  have hle := Real.sqrt_eq_zero'.mp h
  have hnn : 0 ≤ ((l.map (fun x => (x - l.sum / (l.length : ℝ)) *
      (x - l.sum / (l.length : ℝ)))).sum) / (l.length : ℝ) :=
    div_nonneg (sq_dev_sum_nonneg _ _) hlen.le
  have hvar : ((l.map (fun x => (x - l.sum / (l.length : ℝ)) *
      (x - l.sum / (l.length : ℝ)))).sum) / (l.length : ℝ) = 0 := le_antisymm hle hnn
  have hsum0 : (l.map (fun x => (x - l.sum / (l.length : ℝ)) *
      (x - l.sum / (l.length : ℝ)))).sum = 0 := by
    rcases (div_eq_zero_iff.mp hvar) with h' | h'
    · exact h'
    · exact absurd h' (ne_of_gt hlen)
  exact (sq_dev_sum_eq_zero_iff _ _).mp hsum0

/-- Counterexample to C2 as stated: the Pearson primitive on the
unequal-length pair [0,2,10] and [0,2] differs from the standard Pearson
correlation of the truncations — the full sum of the longer list leaks
into its mean, so the result depends on elements past the common
prefix. -/
theorem correlation_truncation_counterexample :
    calculateCorrelation [0, 2, 10] [0, 2] ≠ pearsonSpecCorrelation [0, 2, 10] [0, 2] := by
  have hmin : min ([(0 : ℝ), 2, 10]).length ([(0 : ℝ), 2]).length = 2 := rfl
  have htk1 : List.take 2 [(0 : ℝ), 2, 10] = [0, 2] := rfl
  have htk2 : List.take 2 [(0 : ℝ), 2] = [0, 2] := rfl
  have hm1 : corrMean1 [0, 2, 10] [0, 2] = 6 := by
    unfold corrMean1
    rw [hmin]
    norm_num [List.sum_cons, List.sum_nil]
  have hm2 : corrMean2 [0, 2, 10] [0, 2] = 1 := by
    unfold corrMean2
    rw [hmin]
    norm_num [List.sum_cons, List.sum_nil]
  have hS1 : corrSum1 [0, 2, 10] [0, 2] = 52 := by
    unfold corrSum1
    rw [hmin, htk1, hm1]
    norm_num [List.map_cons, List.map_nil, List.sum_cons, List.sum_nil]
  have hS2 : corrSum2 [0, 2, 10] [0, 2] = 2 := by
    unfold corrSum2
    rw [hmin, htk2, hm2]
    norm_num [List.map_cons, List.map_nil, List.sum_cons, List.sum_nil]
  have hN : corrNumerator [0, 2, 10] [0, 2] = 2 := by
    unfold corrNumerator
    rw [hmin, htk1, htk2, hm1, hm2]
    norm_num [List.zip_cons_cons, List.map_cons, List.map_nil, List.sum_cons,
      List.sum_nil, List.zip_nil_right]
  have htm : specTruncMean [(0 : ℝ), 2, 10] [0, 2] [0, 2] = 1 := by
    unfold specTruncMean
    rw [hmin]
    norm_num [List.sum_cons, List.sum_nil]
  have hsd : specSd [0, 2, 10] [0, 2] [0, 2] = 1 := by
    unfold specSd
    rw [htm, hmin]
    rw [show ((([(0 : ℝ), 2]).map (fun x => (x - 1) * (x - 1))).sum) / ((2 : ℕ) : ℝ) = 1 by
      norm_num [List.map_cons, List.map_nil, List.sum_cons, List.sum_nil]]
    exact Real.sqrt_one
  have hcov : specCov [0, 2, 10] [0, 2] = 1 := by
    unfold specCov
    rw [hmin, htk1, htk2, htm]
    norm_num [List.zip_cons_cons, List.map_cons, List.map_nil, List.sum_cons,
      List.sum_nil, List.zip_nil_right]
  have hL : calculateCorrelation [0, 2, 10] [0, 2] = 2 / Real.sqrt 104 := by
    unfold calculateCorrelation
    rw [if_neg (by rw [hmin]; norm_num)]
    rw [hS1, hS2, hN]
    rw [show (52 : ℝ) * 2 = 104 by norm_num]
    rw [if_neg (by rw [Real.sqrt_eq_zero']; norm_num)]
  have hR : pearsonSpecCorrelation [0, 2, 10] [0, 2] = 1 := by
    unfold pearsonSpecCorrelation
    rw [if_neg (by rw [hmin]; norm_num)]
    rw [hmin, htk1, htk2, hsd, hcov]
    rw [if_neg (by norm_num)]
    norm_num
  rw [hL, hR]
  have hpos : (0 : ℝ) < Real.sqrt 104 := Real.sqrt_pos.mpr (by norm_num)
  have h104 : (2 : ℝ) < Real.sqrt 104 := by
    have h4 : Real.sqrt 4 < Real.sqrt 104 := Real.sqrt_lt_sqrt (by norm_num) (by norm_num)
    rw [show (4 : ℝ) = 2 ^ 2 by norm_num, Real.sqrt_sq (by norm_num : (0 : ℝ) ≤ 2)] at h4
    exact h4
  intro hc
  rw [div_eq_one_iff_eq (ne_of_gt hpos)] at hc
  exact absurd hc (ne_of_lt h104)

/-- C2 (amended): the Pearson primitive returns 0 on a zero common
length; on equal-length inputs it agrees with the standard Pearson
correlation (truncation is the identity there); and it returns 0 (never
NaN) whenever either truncated sequence has zero standard deviation.  For
unequal lengths it is NOT the Pearson correlation of the truncations:
the mean of the longer sequence is its full sum divided by the common
length, so the result depends on elements past the common prefix (see
the counterexample). -/
theorem correlation_vs_spec (v1 v2 : List ℝ) :
    (min v1.length v2.length = 0 → calculateCorrelation v1 v2 = 0) ∧
    (v1.length = v2.length → calculateCorrelation v1 v2 = pearsonSpecCorrelation v1 v2) ∧
    ((listStdDev (v1.take (min v1.length v2.length)) = 0 ∨
      listStdDev (v2.take (min v1.length v2.length)) = 0) →
      calculateCorrelation v1 v2 = 0) := by
  refine ⟨fun h => ?_, fun heq => ?_, fun hsd => ?_⟩
  · unfold calculateCorrelation
    rw [if_pos h]
  · by_cases hn : min v1.length v2.length = 0
    · unfold calculateCorrelation pearsonSpecCorrelation
      rw [if_pos hn, if_pos hn]
    · have hnv1 : min v1.length v2.length = v1.length := min_eq_left (le_of_eq heq)
      have ht1 : v1.take (min v1.length v2.length) = v1 := by
        rw [hnv1]
        exact List.take_length v1
      have ht2 : v2.take (min v1.length v2.length) = v2 := by
        rw [hnv1, heq]
        exact List.take_length v2
      have hnpos : (0 : ℝ) < ((min v1.length v2.length : ℕ) : ℝ) := by
        exact_mod_cast Nat.pos_of_ne_zero hn
      have hmean1 : specTruncMean v1 v2 (v1.take (min v1.length v2.length)) =
          corrMean1 v1 v2 := by
        unfold specTruncMean corrMean1
        rw [ht1]
      have hmean2 : specTruncMean v1 v2 (v2.take (min v1.length v2.length)) =
          corrMean2 v1 v2 := by
        unfold specTruncMean corrMean2
        rw [ht2]
      have hsd1 : specSd v1 v2 (v1.take (min v1.length v2.length)) =
          Real.sqrt (corrSum1 v1 v2 / ((min v1.length v2.length : ℕ) : ℝ)) := by
        unfold specSd corrSum1
        rw [hmean1]
      have hsd2 : specSd v1 v2 (v2.take (min v1.length v2.length)) =
          Real.sqrt (corrSum2 v1 v2 / ((min v1.length v2.length : ℕ) : ℝ)) := by
        unfold specSd corrSum2
        rw [hmean2]
      have hcov : specCov v1 v2 =
          corrNumerator v1 v2 / ((min v1.length v2.length : ℕ) : ℝ) := by
        unfold specCov corrNumerator
        rw [hmean1, hmean2]
      have hS1nn : 0 ≤ corrSum1 v1 v2 := by
        unfold corrSum1
        exact sq_dev_sum_nonneg _ _
      have hS2nn : 0 ≤ corrSum2 v1 v2 := by
        unfold corrSum2
        exact sq_dev_sum_nonneg _ _
      unfold calculateCorrelation pearsonSpecCorrelation
      rw [if_neg hn, if_neg hn, hcov, hsd1, hsd2]
      set nr : ℝ := ((min v1.length v2.length : ℕ) : ℝ) with hnr
      set S1 := corrSum1 v1 v2 with hS1d
      set S2 := corrSum2 v1 v2 with hS2d
      set N := corrNumerator v1 v2 with hNd
      by_cases hz : S1 = 0 ∨ S2 = 0
      · have h1 : Real.sqrt (S1 * S2) = 0 := by
          rcases hz with h | h <;> rw [h] <;> simp
        have h2 : Real.sqrt (S1 / nr) = 0 ∨ Real.sqrt (S2 / nr) = 0 := by
          rcases hz with h | h
          · left
            rw [h, zero_div, Real.sqrt_zero]
          · right
            rw [h, zero_div, Real.sqrt_zero]
        rw [if_pos h1, if_pos h2]
      · push_neg at hz
        have hS1p : 0 < S1 := lt_of_le_of_ne hS1nn (Ne.symm hz.1)
        have hS2p : 0 < S2 := lt_of_le_of_ne hS2nn (Ne.symm hz.2)
        have hsq : Real.sqrt (S1 * S2) ≠ 0 :=
          ne_of_gt (Real.sqrt_pos.mpr (mul_pos hS1p hS2p))
        have hd1 : Real.sqrt (S1 / nr) ≠ 0 :=
          ne_of_gt (Real.sqrt_pos.mpr (div_pos hS1p hnpos))
        have hd2 : Real.sqrt (S2 / nr) ≠ 0 :=
          ne_of_gt (Real.sqrt_pos.mpr (div_pos hS2p hnpos))
        rw [if_neg hsq, if_neg (by push_neg; exact ⟨hd1, hd2⟩)]
        have hnr0 : nr ≠ 0 := ne_of_gt hnpos
        have hsn : Real.sqrt nr ≠ 0 := ne_of_gt (Real.sqrt_pos.mpr hnpos)
        have hs1n : Real.sqrt S1 ≠ 0 := ne_of_gt (Real.sqrt_pos.mpr hS1p)
        have hs2n : Real.sqrt S2 ≠ 0 := ne_of_gt (Real.sqrt_pos.mpr hS2p)
        rw [Real.sqrt_div hS1nn, Real.sqrt_div hS2nn, Real.sqrt_mul hS1nn]
        rw [div_mul_div_comm, Real.mul_self_sqrt hnpos.le]
        field_simp
  · by_cases hn : min v1.length v2.length = 0
    · unfold calculateCorrelation
      rw [if_pos hn]
    · have hn1 : min v1.length v2.length ≤ v1.length := Nat.min_le_left _ _
      have hn2 : min v1.length v2.length ≤ v2.length := Nat.min_le_right _ _
      have hlen1 : (v1.take (min v1.length v2.length)).length = min v1.length v2.length := by
        rw [List.length_take]
        exact min_eq_left hn1
      have hlen2 : (v2.take (min v1.length v2.length)).length = min v1.length v2.length := by
        rw [List.length_take]
        exact min_eq_left hn2
      rcases hsd with hsd | hsd
      · have ht1ne : v1.take (min v1.length v2.length) ≠ [] := by
          intro hc
          rw [hc] at hlen1
          exact hn hlen1.symm
        have hconst := listStdDev_eq_zero _ ht1ne hsd
        rw [hlen1] at hconst
        by_cases hle : v1.length ≤ v2.length
        · have hnv1 : min v1.length v2.length = v1.length := min_eq_left hle
          have ht1 : v1.take (min v1.length v2.length) = v1 := by
            rw [hnv1]
            exact List.take_length v1
          have hs1 : corrSum1 v1 v2 = 0 := by
            unfold corrSum1 corrMean1
            apply (sq_dev_sum_eq_zero_iff _ _).mpr
            intro x hx
            have := hconst x hx
            rw [ht1] at this
            exact this
          unfold calculateCorrelation
          rw [if_neg hn, hs1, zero_mul, Real.sqrt_zero, if_pos rfl]
        · have hnv2 : min v1.length v2.length = v2.length :=
            min_eq_right (le_of_not_le hle)
          have ht2 : v2.take (min v1.length v2.length) = v2 := by
            rw [hnv2]
            exact List.take_length v2
          apply calculateCorrelation_eq_zero_of_num
          unfold corrNumerator
          rw [zip_const_left_sum _ _ _ _ _ hconst (by rw [hlen1, hlen2])]
          rw [ht2]
          unfold corrMean2
          rw [hnv2]
          rw [sum_sub_mean v2 (by
            intro hc
            apply hn
            rw [hnv2, hc]
            rfl)]
          rw [mul_zero]
      · have ht2ne : v2.take (min v1.length v2.length) ≠ [] := by
          intro hc
          rw [hc] at hlen2
          exact hn hlen2.symm
        have hconst := listStdDev_eq_zero _ ht2ne hsd
        rw [hlen2] at hconst
        by_cases hle : v2.length ≤ v1.length
        · have hnv2 : min v1.length v2.length = v2.length := min_eq_right hle
          have ht2 : v2.take (min v1.length v2.length) = v2 := by
            rw [hnv2]
            exact List.take_length v2
          have hs2 : corrSum2 v1 v2 = 0 := by
            unfold corrSum2 corrMean2
            apply (sq_dev_sum_eq_zero_iff _ _).mpr
            intro x hx
            have := hconst x hx
            rw [ht2] at this
            exact this
          unfold calculateCorrelation
          rw [if_neg hn, hs2, mul_zero, Real.sqrt_zero, if_pos rfl]
        · have hnv1 : min v1.length v2.length = v1.length :=
            min_eq_left (le_of_not_le hle)
          have ht1 : v1.take (min v1.length v2.length) = v1 := by
            rw [hnv1]
            exact List.take_length v1
          apply calculateCorrelation_eq_zero_of_num
          unfold corrNumerator
          rw [zip_const_right_sum _ _ _ _ _ hconst (by rw [hlen1, hlen2])]
          rw [ht1]
          unfold corrMean1
          rw [hnv1]
          rw [sum_sub_mean v1 (by
            intro hc
            apply hn
            rw [hnv1, hc]
            rfl)]
          rw [mul_zero]

/-- Witness for the amended C2 at an equal-length pair. -/
theorem correlation_vs_spec_witness :
    ([0, 1] : List ℝ).length = ([0, 2] : List ℝ).length ∧
    calculateCorrelation [0, 1] [0, 2] = pearsonSpecCorrelation [0, 1] [0, 2] :=
  ⟨rfl, (correlation_vs_spec [0, 1] [0, 2]).2.1 rfl⟩

/-- C1: on the share-value series [100, 90, 95, 110] the Drawdown
Extractor emits exactly one completed episode: peak 100, trough 90,
drawdown percent 10.00, start date = the peak record's date (day 1), end
date = the trough record's date (day 2), recovery date = the date of the
record at the first index whose value strictly exceeds the prior peak 100
(index 3, day 4), and no open current drawdown remains. -/
theorem drawdown_single_episode_c1 :
    (calculateDrawdownAnalysis c1Data).allDrawdowns =
      [⟨some ⟨2020, 1, 1⟩, some ⟨2020, 1, 2⟩, some ⟨2020, 1, 4⟩, 100, 90, 10, 1, some 2⟩] ∧
    (calculateDrawdownAnalysis c1Data).currentDrawdown = none ∧
    (c1Data.map (fun r => r.shareValue)).findIdx (fun v => decide (100 < v)) = 3 := by
  refine ⟨?_, ?_, ?_⟩ <;> with_unfolding_all decide
